import Mathlib

/-!
Verification development for the multi-account credential rotation engine
(`pi-extensions`). The engine is duplicated, with small variations, across
three extensions:

* `Antigravity` — the Google Antigravity rotator (src/unnamed/part_000);
* `ClaudeRotatorV1` — the first Claude rotator (src/unnamed/part_001, second
  document);
* `ClaudeRotator` — the second Claude rotator with `identify`
  (src/unnamed/part_002).

The shallow embedding translates the TypeScript sources into pure Lean
functions.  I/O effects (file persistence, writes into the host credential
store) are reified as fields of explicit result structures; nondeterministic
network results (OAuth token bundles, refresh outcomes) become explicit
function arguments.  JavaScript numbers holding timestamps and indices are
modelled as `Int`; JavaScript `null`/`undefined` become `Option`.
-/

namespace PiExt

/-- JavaScript array read `l[i]` for a possibly out-of-range or negative
integer index: yields `undefined` (here `none`) instead of an element. -/
def jsGet (l : List α) (i : Int) : Option α :=
  if i < 0 then none else l[i.toNat]?

/-- JavaScript `%` on integers (remainder truncated toward zero, sign of the
dividend), as used in `(currentIndex + offset) % len`. -/
def jsRem (a b : Int) : Int := Int.tmod a b

/-- JavaScript truthiness of an optional string (`undefined` and `""` are
falsy). -/
def jsTruthyStr : Option String → Bool
  | none => false
  | some s => s ≠ ""

/-- JavaScript truthiness of an optional number (`undefined`, `null` and `0`
are falsy; `NaN` is not modelled). -/
def jsTruthyNum : Option Int → Bool
  | none => false
  | some t => t ≠ 0

/-- JavaScript `a || b` on strings: `b` when `a` is empty. -/
def jsOrStr (a b : String) : String := if a = "" then b else a

/-- Index of the first element satisfying the predicate
(`Array.prototype.findIndex`, with `none` for `-1`). -/
def firstIdx (p : α → Bool) : List α → Option Nat
  | [] => none
  | a :: as => if p a then some 0 else (firstIdx p as).map (· + 1)

/-- Apply `f` to the element at one position, leaving the rest unchanged
(the in-place mutation `l[i] = f(l[i])` of a JavaScript array). -/
def setIdx (f : α → α) : List α → Nat → List α
  | [], _ => []
  | a :: as, 0 => f a :: as
  | a :: as, n + 1 => a :: setIdx f as n

/-!
### Regular expressions

The exhaustion detectors are JavaScript regex literals tested with
`RATE_LIMIT_PATTERN.test(errorMessage)`.  They use only literal characters,
alternation, the optional wildcard `.?` and the wildcard closure `.*`, so a
small classical matcher (Brzozowski derivatives) embeds them exactly.  The
`i` flag is modelled by writing the pattern literals in lower case and
lowering the input before matching; `.` matches any character except a
newline.
-/

/-- Regular expressions over characters. -/
inductive RE where
  | emp
  | eps
  | ch (c : Char)
  | dot
  | alt (r s : RE)
  | cat (r s : RE)
  | star (r : RE)
  deriving DecidableEq, Repr

/-- Does the regular expression accept the empty string? -/
def RE.nullable : RE → Bool
  | .emp => false
  | .eps => true
  | .ch _ => false
  | .dot => false
  | .alt r s => r.nullable || s.nullable
  | .cat r s => r.nullable && s.nullable
  | .star _ => true

/-- Brzozowski derivative of a regular expression by one character. -/
def RE.deriv : RE → Char → RE
  | .emp, _ => .emp
  | .eps, _ => .emp
  | .ch c, a => if a = c then .eps else .emp
  | .dot, a => if a = '\n' then .emp else .eps
  | .alt r s, a => .alt (r.deriv a) (s.deriv a)
  | .cat r s, a =>
      if r.nullable then .alt (.cat (r.deriv a) s) (s.deriv a)
      else .cat (r.deriv a) s
  | .star r, a => .cat (r.deriv a) (.star r)

/-- Does some initial segment of the input match the regular expression? -/
def matchesInit : RE → List Char → Bool
  | r, [] => r.nullable
  | r, c :: cs => r.nullable || matchesInit (r.deriv c) cs

/-- `r.test(s)` without anchors: does the pattern match anywhere in the
input? -/
def testSearch : RE → List Char → Bool
  | r, [] => r.nullable
  | r, s@(_ :: cs) => matchesInit r s || testSearch r cs

/-- A literal string, one `cat` per character. -/
def RE.lit (s : String) : RE := s.data.foldr (fun c r => .cat (.ch c) r) .eps

/-- The regex postfix `?` (zero or one occurrence). -/
def RE.optional (r : RE) : RE := .alt r .eps

/-- ASCII lower-casing of one character (the case-insensitivity of the `i`
flag; all pattern literals and tested inputs are ASCII). -/
def lowerChar (c : Char) : Char :=
  if 'A' ≤ c ∧ c ≤ 'Z' then Char.ofNat (c.toNat + 32) else c

/-- `pattern.test(input)` of a case-insensitive JavaScript regex: search the
lowered input for a match of the (lower-cased) pattern. -/
def testPattern (r : RE) (s : String) : Bool :=
  testSearch r (s.data.map lowerChar)

namespace Antigravity

/-- One pool entry of the Antigravity rotator (src/unnamed/part_000,
`interface Account`).  Optional fields model TypeScript's `?:`. -/
structure Account where
  label : String
  email : Option String
  googleId : Option String
  refresh : String
  access : String
  expires : Int
  projectId : String
  addedAt : Int
  exhaustedAt : Option Int
  deriving DecidableEq, Repr

/-- The persisted pool (src/unnamed/part_000, `interface AccountsConfig`). -/
structure AccountsConfig where
  accounts : List Account
  currentIndex : Int
  deriving DecidableEq, Repr

/-- `COOLDOWN_MS = 60 * 60 * 1000` (src/unnamed/part_000 line 105). -/
def COOLDOWN_MS : Int := 60 * 60 * 1000

/-- The availability test shared by `countAvailable` and `findNextAvailable`
(src/unnamed/part_000 lines 477-479 and 492):
`!a.exhaustedAt || now - a.exhaustedAt > COOLDOWN_MS`.
Note the JavaScript falsiness test: `exhaustedAt = 0` is treated like
`null`. -/
def isAvailableImpl (a : Account) (now : Int) : Bool :=
  !jsTruthyNum a.exhaustedAt || now - a.exhaustedAt.getD 0 > COOLDOWN_MS

/-- `countAvailable` (src/unnamed/part_000 lines 475-481). -/
def countAvailable (cfg : AccountsConfig) (now : Int) : Nat :=
  (cfg.accounts.filter (fun a => isAvailableImpl a now)).length

/-- The array index examined at scan offset `k`:
`(currentIndex + offset) % len`. -/
def offsetIdx (ci : Int) (len k : Nat) : Int := jsRem (ci + k) len

/-- The body of the scan loop of `findNextAvailable`
(src/unnamed/part_000 lines 489-495), iterated over the list of offsets
`1, …, len-1` produced by `for (offset = 1; offset < len; offset++)`.
When `currentIndex < 0` the JavaScript read `accounts[idx]` yields
`undefined` and the subsequent property access throws; that (unreachable
under the pool invariant) case is modelled by the `none` branch continuing
the scan. -/
def findFirstAvail (accounts : List Account) (ci now : Int) (len : Nat) :
    List Nat → Option (Account × Int)
  | [] => none
  | k :: ks =>
    let idx := offsetIdx ci len k
    match jsGet accounts idx with
    | some acc =>
        if isAvailableImpl acc now then some (acc, idx)
        else findFirstAvail accounts ci now len ks
    | none => findFirstAvail accounts ci now len ks

/-- `findNextAvailable` (src/unnamed/part_000 lines 483-497). -/
def findNextAvailable (cfg : AccountsConfig) (now : Int) :
    Option (Account × Int) :=
  findFirstAvail cfg.accounts cfg.currentIndex now cfg.accounts.length
    (List.range' 1 (cfg.accounts.length - 1))

/-- Is the account examined at scan offset `k` available?  (`false` also
covers an out-of-range read.) -/
def availAtOffset (accounts : List Account) (ci now : Int) (len k : Nat) :
    Bool :=
  match jsGet accounts (offsetIdx ci len k) with
  | some acc => isAvailableImpl acc now
  | none => false

/-- `RATE_LIMIT_PATTERN` of the Antigravity rotator (src/unnamed/part_000
lines 101-102):
`/rate.?limit|resource.?exhausted|too many requests|429|quota.?will.?reset|Cloud Code Assist API error.*429/i`. -/
def RATE_LIMIT_PATTERN : RE :=
  .alt (.cat (RE.lit "rate") (.cat (RE.optional .dot) (RE.lit "limit")))
  (.alt (.cat (RE.lit "resource") (.cat (RE.optional .dot) (RE.lit "exhausted")))
  (.alt (RE.lit "too many requests")
  (.alt (RE.lit "429")
  (.alt (.cat (RE.lit "quota") (.cat (RE.optional .dot)
          (.cat (RE.lit "will") (.cat (RE.optional .dot) (RE.lit "reset")))))
        (.cat (RE.lit "cloud code assist api error")
          (.cat (.star .dot) (RE.lit "429")))))))

/-- Search keys for `findAccountIndex`; every field is optional in the
source. -/
structure MatchKeys where
  googleId : Option String
  email : Option String
  refresh : Option String
  deriving DecidableEq, Repr

/-- `findAccountIndex` (src/unnamed/part_000 lines 503-527): match by
`googleId`, then `email`, then `refresh`, each key only when truthy,
returning the first hit. -/
def findAccountIndex (accounts : List Account) (m : MatchKeys) : Option Nat :=
  (if jsTruthyStr m.googleId
    then firstIdx (fun a => a.googleId == m.googleId) accounts else none) <|>
  (if jsTruthyStr m.email
    then firstIdx (fun a => a.email == m.email) accounts else none) <|>
  (if jsTruthyStr m.refresh
    then firstIdx (fun a => some a.refresh == m.refresh) accounts else none)

/-- The normalized result of a successful `antigravityOAuth` run
(src/unnamed/part_000 lines 447-454). -/
structure TokenBundle where
  refresh : String
  access : String
  expires : Int
  projectId : String
  email : Option String
  googleId : Option String
  deriving DecidableEq, Repr

/-- In-place overwrite of the matched entry in the `add` handler's merge
branch (src/unnamed/part_000 lines 764-773). -/
def mergeInto (tokens : TokenBundle) (customLabel : String) (old : Account) :
    Account :=
  { old with
    refresh := tokens.refresh
    access := tokens.access
    expires := tokens.expires
    projectId := tokens.projectId
    email := tokens.email <|> old.email
    googleId := tokens.googleId <|> old.googleId
    label := jsOrStr customLabel old.label }

/-- Replace the element at a position (in-place mutation of
`config.accounts[dupIdx]`). -/
def mergeAt (tokens : TokenBundle) (customLabel : String)
    (l : List Account) (i : Nat) : List Account :=
  setIdx (mergeInto tokens customLabel) l i

/-- The pool mutation of the `add` command handler after a successful OAuth
acquisition (src/unnamed/part_000 lines 752-795): merge into the entry with
a matching stable identity, or append a fresh account. -/
def addOrMerge (cfg : AccountsConfig) (tokens : TokenBundle)
    (customLabel : String) (now : Int) : AccountsConfig :=
  let label := jsOrStr customLabel
    (jsOrStr (tokens.email.getD "")
      ("Account " ++ toString (cfg.accounts.length + 1)))
  match findAccountIndex cfg.accounts
      ⟨tokens.googleId, tokens.email, some tokens.refresh⟩ with
  | some i => { cfg with accounts := mergeAt tokens customLabel cfg.accounts i }
  | none =>
      { cfg with accounts := cfg.accounts ++
          [⟨label, tokens.email, tokens.googleId, tokens.refresh,
            tokens.access, tokens.expires, tokens.projectId, now, none⟩] }

/-- Outcome of the `remove` command handler. -/
structure RemoveResult where
  cfg : AccountsConfig
  errored : Bool
  saved : Bool
  deriving DecidableEq, Repr

/-- The `remove <index>` command handler (src/unnamed/part_000 lines
940-975).  `arg = none` models `parseInt` returning `NaN`. -/
def removeCmd : AccountsConfig → Option Int → RemoveResult
  | cfg, none => ⟨cfg, true, false⟩
  | cfg, some idx =>
    if idx < 0 ∨ (cfg.accounts.length : Int) ≤ idx then ⟨cfg, true, false⟩
    else
      ⟨⟨cfg.accounts.eraseIdx idx.toNat,
        if ((cfg.accounts.eraseIdx idx.toNat).length : Int) = 0 then 0
        else if ((cfg.accounts.eraseIdx idx.toNat).length : Int)
            ≤ cfg.currentIndex then
          ((cfg.accounts.eraseIdx idx.toNat).length : Int) - 1
        else if idx < cfg.currentIndex then cfg.currentIndex - 1
        else cfg.currentIndex⟩, false, true⟩

/-- The credential written into the host's auth storage by the Antigravity
rotator (src/unnamed/part_000 lines 582-588); the constant `type: "oauth"`
tag is left implicit. -/
structure OAuthCred where
  refresh : String
  access : String
  expires : Int
  projectId : String
  deriving DecidableEq, Repr

/-- Insert into an ascending list (one step of modelling
`sort((a, b) => a - b)`). -/
def insertSorted (x : Int) : List Int → List Int
  | [] => [x]
  | y :: ys => if x ≤ y then x :: y :: ys else y :: insertSorted x ys

/-- Ascending sort of a list of numbers, `sort((a, b) => a - b)`. -/
def sortAsc (l : List Int) : List Int := l.foldr insertSorted []

/-- The list of positive remaining cooldowns built in `rotateAccount`'s
all-exhausted branch (src/unnamed/part_000 lines 565-569):
`accounts.filter(a => a.exhaustedAt).map(a => a.exhaustedAt! + COOLDOWN_MS - now).filter(t => t > 0)`. -/
def remainingCooldowns (accounts : List Account) (now : Int) : List Int :=
  ((accounts.filter (fun a => jsTruthyNum a.exhaustedAt)).map
    (fun a => a.exhaustedAt.getD 0 + COOLDOWN_MS - now)).filter
      (fun t => 0 < t)

/-- `sort(...)[0]` over the remaining cooldowns: first element of the sorted
list, `undefined` when empty. -/
def soonestRemaining (accounts : List Account) (now : Int) : Option Int :=
  (sortAsc (remainingCooldowns accounts now)).head?

/-- `Math.ceil(s / 60000)` for a positive integer number of milliseconds. -/
def ceilMins (s : Int) : Int := (s + 59999) / 60000

/-- Observable outcome of one `rotateAccount` call: the resulting pool, the
returned boolean, the credential pushed into the host auth storage (if any),
the pool passed to `saveAccounts` (if any), and the ETA minutes shown in the
all-exhausted notification (`none` also covers the `"?"` placeholder). -/
structure RotateResult where
  cfg : AccountsConfig
  success : Bool
  written : Option OAuthCred
  saved : Option AccountsConfig
  etaMins : Option Int
  deriving DecidableEq, Repr

/-- `rotateAccount` (src/unnamed/part_000 lines 553-600). -/
def rotateAccount (cfg : AccountsConfig) (now : Int) : RotateResult :=
  if cfg.accounts.length ≤ 1 then ⟨cfg, false, none, none, none⟩
  else
    match findNextAvailable cfg now with
    | none =>
        ⟨cfg, false, none, none, (soonestRemaining cfg.accounts now).map ceilMins⟩
    | some (acc, idx) =>
        let cfg' := { cfg with currentIndex := idx }
        ⟨cfg', true, some ⟨acc.refresh, acc.access, acc.expires, acc.projectId⟩,
          some cfg', none⟩

/-- The host credential as read from the auth storage (`as any` in the
source): a type tag plus the OAuth fields, with `projectId` possibly
absent. -/
structure HostCred where
  typ : String
  refresh : String
  access : String
  expires : Int
  projectId : Option String
  deriving DecidableEq, Repr

/-- Outcome of `syncFromAuth`: the resulting pool and whether it was
persisted. -/
structure SyncResult where
  cfg : AccountsConfig
  saved : Bool
  deriving DecidableEq, Repr

/-- The per-entry update of `syncFromAuth`
(src/unnamed/part_000 lines 619-623): overwrite `access` and `expires`, and
`projectId` only when the host credential carries a truthy one. -/
def liveUpdate (c : HostCred) (a : Account) : Account :=
  { a with
    access := c.access
    expires := c.expires
    projectId := (if jsTruthyStr c.projectId then c.projectId.getD a.projectId
                  else a.projectId) }

/-- In-place update of the located entry in `syncFromAuth`. -/
def updateLiveAt (c : HostCred) (l : List Account) (i : Nat) : List Account :=
  setIdx (liveUpdate c) l i

/-- The integer index located by `syncFromAuth` before the bounds check
(src/unnamed/part_000 lines 610-616): the refresh-token match if any
(`findIndex` yielding `-1` on no match), else a fallback to `currentIndex`
when that is below the pool length. -/
def syncIdx (cfg : AccountsConfig) (cred : HostCred) : Int :=
  let idx0 : Int :=
    match findAccountIndex cfg.accounts ⟨none, none, some cred.refresh⟩ with
    | some i => i
    | none => -1
  if idx0 < 0 ∧ cfg.currentIndex < (cfg.accounts.length : Int) then
    cfg.currentIndex
  else idx0

/-- `syncFromAuth` (src/unnamed/part_000 lines 606-627). -/
def syncFromAuth : AccountsConfig → Option HostCred → SyncResult
  | cfg, none => ⟨cfg, false⟩
  | cfg, some cred =>
    if cred.typ ≠ "oauth" then ⟨cfg, false⟩
    else if 0 ≤ syncIdx cfg cred ∧ syncIdx cfg cred < (cfg.accounts.length : Int)
    then ⟨⟨updateLiveAt cred cfg.accounts (syncIdx cfg cred).toNat,
            syncIdx cfg cred⟩, true⟩
    else ⟨cfg, false⟩

/-- `DEFAULT_PROJECT_ID` (src/unnamed/part_000 line 96). -/
def DEFAULT_PROJECT_ID : String := "rising-fact-p41fc"

/-- `autoImportFromAuth` (src/unnamed/part_000 lines 629-653): seed an empty
pool from the host's current OAuth credential. -/
def autoImportFromAuth (cfg : AccountsConfig) (cred? : Option HostCred)
    (now : Int) : AccountsConfig :=
  if cfg.accounts.length > 0 then cfg
  else
    match cred? with
    | none => cfg
    | some cred =>
      if cred.typ ≠ "oauth" ∨ cred.refresh = "" then cfg
      else
        ⟨[⟨"Account 1 (auto-imported)", none, none, cred.refresh, cred.access,
            cred.expires, jsOrStr (cred.projectId.getD "") DEFAULT_PROJECT_ID,
            now, none⟩], 0⟩

/-- The `reset` command handler (src/unnamed/part_000 lines 978-994): clear
every non-`null` `exhaustedAt` and count the cleared entries. -/
def resetCmd (cfg : AccountsConfig) : AccountsConfig × Nat :=
  (⟨cfg.accounts.map (fun a => { a with exhaustedAt := none }),
      cfg.currentIndex⟩,
    (cfg.accounts.filter (fun a => a.exhaustedAt ≠ none)).length)

/-- Result of `fetchUserInfo` for one account during `identify`. -/
structure UserInfo where
  email : Option String
  id : Option String
  deriving DecidableEq, Repr

/-- Result of one `refreshAccessToken` + `fetchUserInfo` round during
`identify` (jointly modelling the two network calls). -/
structure RefreshOutcome where
  access : String
  expires : Int
  userInfo : Option UserInfo
  deriving DecidableEq, Repr

/-- The per-account body of the `identify` loop (src/unnamed/part_000 lines
876-921), given the network outcome for that account (`none` models a failed
token refresh, which leaves the account untouched). -/
def identifyAccount (o : Option RefreshOutcome) (a : Account) : Account :=
  match o with
  | none => a
  | some r =>
    let a1 := { a with access := r.access, expires := r.expires }
    match r.userInfo with
    | none => a1
    | some u =>
      if jsTruthyStr u.email then
        { a1 with
          email := u.email
          googleId := u.id
          label := (if a1.label.startsWith "Account " then u.email.getD a1.label
                    else a1.label) }
      else a1

/-- The `identify` command's pool mutation (src/unnamed/part_000 lines
849-931): every account with a falsy `email` is transformed by
`identifyAccount` under the network oracle; `currentIndex` is untouched. -/
def identifyRun (cfg : AccountsConfig) (oracle : Nat → Option RefreshOutcome) :
    AccountsConfig :=
  { cfg with accounts :=
      ((List.range cfg.accounts.length).zipWith
        (fun i a => if jsTruthyStr a.email then a
                    else identifyAccount (oracle i) a)
        cfg.accounts) }

/-- The backing file as seen by `loadAccounts`: missing, unparsable, or a
parsed JSON object from which only an `accounts` array and a numeric
`currentIndex` are extracted (`none` models a missing or wrongly-typed
field). -/
inductive FileContent where
  | missing
  | malformed
  | parsed (accounts : Option (List Account)) (currentIndex : Option Int)
  deriving DecidableEq, Repr

/-- `loadAccounts` (src/unnamed/part_000 lines 114-128). -/
def loadAccounts : FileContent → AccountsConfig
  | .missing => ⟨[], 0⟩
  | .malformed => ⟨[], 0⟩
  | .parsed accs ci => ⟨accs.getD [], ci.getD 0⟩

/-- The file written by `saveAccounts` (src/unnamed/part_000 lines 130-141):
`JSON.stringify(cfg)` serializes exactly the `accounts` array and the
numeric `currentIndex`, which parse back to the same values. -/
def savedFile (cfg : AccountsConfig) : FileContent :=
  .parsed (some cfg.accounts) (some cfg.currentIndex)

/-- `displayName` (src/unnamed/part_000 lines 471-473): `acc.email ?? acc.label`. -/
def displayName (a : Account) : String := a.email.getD a.label

/-- The account name rendered by `updateStatus` (src/unnamed/part_000 lines
540-542): `const current = accounts[currentIndex]; current ? displayName(current) : "?"`. -/
def statusName (cfg : AccountsConfig) : String :=
  match jsGet cfg.accounts cfg.currentIndex with
  | some a => displayName a
  | none => "?"

/-- `PROVIDER` (src/unnamed/part_000 line 71). -/
def PROVIDER : String := "google-antigravity"

/-- The fields of the turn-end event message that the handler inspects. -/
structure TurnMessage where
  role : String
  stopReason : String
  errorMessage : Option String
  deriving DecidableEq, Repr

/-- Set `exhaustedAt := now` on the entry at a position (in-place mutation of
`config.accounts[currentIndex]`). -/
def markExhaustedAt (now : Int) (l : List Account) (i : Nat) : List Account :=
  setIdx (fun a => { a with exhaustedAt := some now }) l i

/-- Observable outcome of the `turn_end` handler: the pool after the
mark-exhausted step, whether an account was marked (and the pool saved), and
the rotation result when `rotateAccount` was invoked. -/
structure TurnEndResult where
  preRotate : AccountsConfig
  marked : Bool
  rotated : Option RotateResult
  deriving DecidableEq, Repr

/-- The `turn_end` handler (src/unnamed/part_000 lines 670-699).  `provider`
is `ctx.model?.provider` (`none` when no model is selected). -/
def turnEnd (provider : Option String) (msg : TurnMessage)
    (cfg : AccountsConfig) (now : Int) : TurnEndResult :=
  if provider ≠ some PROVIDER then ⟨cfg, false, none⟩
  else if msg.role ≠ "assistant" then ⟨cfg, false, none⟩
  else if msg.stopReason ≠ "error" ∨ ¬jsTruthyStr msg.errorMessage then
    ⟨cfg, false, none⟩
  else if ¬testPattern RATE_LIMIT_PATTERN (msg.errorMessage.getD "") then
    ⟨cfg, false, none⟩
  else if cfg.accounts.length ≤ 1 then ⟨cfg, false, none⟩
  else
    match jsGet cfg.accounts cfg.currentIndex with
    | some _ =>
        let cfg1 : AccountsConfig :=
          ⟨markExhaustedAt now cfg.accounts cfg.currentIndex.toNat,
            cfg.currentIndex⟩
        ⟨cfg1, true, some (rotateAccount cfg1 now)⟩
    | none => ⟨cfg, false, some (rotateAccount cfg now)⟩

end Antigravity

namespace ClaudeRotatorV1

/-- `RATE_LIMIT_PATTERN` of the first Claude rotator (src/unnamed/part_001
line 505): `/rate.?limit|too many requests|429/i`. -/
def RATE_LIMIT_PATTERN : RE :=
  .alt (.cat (RE.lit "rate") (.cat (RE.optional .dot) (RE.lit "limit")))
  (.alt (RE.lit "too many requests") (RE.lit "429"))

/-- One pool entry of the first Claude rotator (src/unnamed/part_001,
`interface Account`): this variant stores no email or external id. -/
structure Account where
  label : String
  refresh : String
  access : String
  expires : Int
  addedAt : Int
  exhaustedAt : Option Int
  deriving DecidableEq, Repr

/-- The persisted pool (src/unnamed/part_001, `interface AccountsConfig`). -/
structure AccountsConfig where
  accounts : List Account
  currentIndex : Int
  deriving DecidableEq, Repr

/-- The host credential read from the auth storage: the `type` tag plus the
plain OAuth fields. -/
structure HostCred where
  typ : String
  refresh : String
  access : String
  expires : Int
  deriving DecidableEq, Repr

/-- Outcome of `syncFromAuth`: the resulting pool and whether it was
persisted. -/
structure SyncResult where
  cfg : AccountsConfig
  saved : Bool
  deriving DecidableEq, Repr

/-- The per-entry update of the first Claude rotator's `syncFromAuth`
(src/unnamed/part_001 lines 754-755): overwrite `access` and `expires`
only. -/
def liveUpdate (c : HostCred) (a : Account) : Account :=
  { a with
    access := c.access
    expires := c.expires }

/-- In-place update of the located entry in `syncFromAuth`. -/
def updateLiveAt (c : HostCred) (l : List Account) (i : Nat) : List Account :=
  setIdx (liveUpdate c) l i

/-- `syncFromAuth` of the first Claude rotator (src/unnamed/part_001 lines
745-759): locate the entry by exact refresh-token match
(`findIndex(a => a.refresh === cred.refresh)`); on a hit overwrite its live
fields, point `currentIndex` at it and persist; on a miss do nothing — this
variant has **no** `currentIndex` fallback. -/
def syncFromAuth : AccountsConfig → Option HostCred → SyncResult
  | cfg, none => ⟨cfg, false⟩
  | cfg, some cred =>
    if cred.typ ≠ "oauth" then ⟨cfg, false⟩
    else
      match firstIdx (fun a => a.refresh == cred.refresh) cfg.accounts with
      | some i => ⟨⟨updateLiveAt cred cfg.accounts i, (i : Int)⟩, true⟩
      | none => ⟨cfg, false⟩

end ClaudeRotatorV1

namespace ClaudeRotator

/-- `RATE_LIMIT_PATTERN` of the second Claude rotator (src/unnamed/part_002
line 88): `/rate.?limit|too many requests|429/i` — identical to the first
Claude rotator's pattern. -/
def RATE_LIMIT_PATTERN : RE :=
  .alt (.cat (RE.lit "rate") (.cat (RE.optional .dot) (RE.lit "limit")))
  (.alt (RE.lit "too many requests") (RE.lit "429"))

/-- One pool entry of the second Claude rotator (src/unnamed/part_002,
`interface Account`). -/
structure Account where
  label : String
  email : Option String
  accountUuid : Option String
  refresh : String
  access : String
  expires : Int
  addedAt : Int
  exhaustedAt : Option Int
  deriving DecidableEq, Repr

/-- The persisted pool (src/unnamed/part_002, `interface AccountsConfig`). -/
structure AccountsConfig where
  accounts : List Account
  currentIndex : Int
  deriving DecidableEq, Repr

/-- Search keys for `findAccountIndex` of the second Claude rotator. -/
structure MatchKeys where
  accountUuid : Option String
  email : Option String
  refresh : Option String
  deriving DecidableEq, Repr

/-- `findAccountIndex` (src/unnamed/part_002 lines 285-305): match by
`accountUuid`, then `email`, then `refresh`, each key only when truthy. -/
def findAccountIndex (accounts : List Account) (m : MatchKeys) : Option Nat :=
  (if jsTruthyStr m.accountUuid
    then firstIdx (fun a => a.accountUuid == m.accountUuid) accounts else none) <|>
  (if jsTruthyStr m.email
    then firstIdx (fun a => a.email == m.email) accounts else none) <|>
  (if jsTruthyStr m.refresh
    then firstIdx (fun a => some a.refresh == m.refresh) accounts else none)

/-- The host credential read from the auth storage: the `type` tag plus the
plain OAuth fields (this variant carries no extras). -/
structure HostCred where
  typ : String
  refresh : String
  access : String
  expires : Int
  deriving DecidableEq, Repr

/-- Outcome of `syncFromAuth`: the resulting pool and whether it was
persisted. -/
structure SyncResult where
  cfg : AccountsConfig
  saved : Bool
  deriving DecidableEq, Repr

/-- The per-entry update of the second Claude rotator's `syncFromAuth`
(src/unnamed/part_002 lines 397-399): this variant also overwrites the
stored `refresh` token. -/
def liveUpdate (c : HostCred) (a : Account) : Account :=
  { a with
    refresh := c.refresh
    access := c.access
    expires := c.expires }

/-- In-place update of the located entry in `syncFromAuth`. -/
def updateLiveAt (c : HostCred) (l : List Account) (i : Nat) : List Account :=
  setIdx (liveUpdate c) l i

/-- The integer index located by the second Claude rotator's `syncFromAuth`
before the bounds check (src/unnamed/part_002 lines 388-394). -/
def syncIdx (cfg : AccountsConfig) (cred : HostCred) : Int :=
  let idx0 : Int :=
    match findAccountIndex cfg.accounts ⟨none, none, some cred.refresh⟩ with
    | some i => i
    | none => -1
  if idx0 < 0 ∧ cfg.currentIndex < (cfg.accounts.length : Int) then
    cfg.currentIndex
  else idx0

/-- `syncFromAuth` (src/unnamed/part_002 lines 382-403). -/
def syncFromAuth : AccountsConfig → Option HostCred → SyncResult
  | cfg, none => ⟨cfg, false⟩
  | cfg, some cred =>
    if cred.typ ≠ "oauth" then ⟨cfg, false⟩
    else if 0 ≤ syncIdx cfg cred ∧ syncIdx cfg cred < (cfg.accounts.length : Int)
    then ⟨⟨updateLiveAt cred cfg.accounts (syncIdx cfg cred).toNat,
            syncIdx cfg cred⟩, true⟩
    else ⟨cfg, false⟩

/-- The normalized result of `parseTokenResponse`
(src/unnamed/part_002 lines 159-167). -/
structure TokenBundle where
  refresh : String
  access : String
  expires : Int
  email : Option String
  accountUuid : Option String
  deriving DecidableEq, Repr

/-- In-place overwrite of the matched entry in the second Claude rotator's
`add` merge branch (src/unnamed/part_002 lines 537-544): `email` and
`accountUuid` are assigned directly from the bundle (not merged). -/
def mergeInto (tokens : TokenBundle) (customLabel : String) (old : Account) :
    Account :=
  { old with
    refresh := tokens.refresh
    access := tokens.access
    expires := tokens.expires
    email := tokens.email
    accountUuid := tokens.accountUuid
    label := jsOrStr customLabel old.label }

/-- Replace the element at a position (in-place mutation of
`config.accounts[dupIdx]`). -/
def mergeAt (tokens : TokenBundle) (customLabel : String)
    (l : List Account) (i : Nat) : List Account :=
  setIdx (mergeInto tokens customLabel) l i

/-- The pool mutation of the second Claude rotator's `add` command handler
after a successful OAuth acquisition (src/unnamed/part_002 lines 525-565).
The duplicate check passes only `accountUuid` and `email` to
`findAccountIndex` — the refresh token is never consulted. -/
def addOrMerge (cfg : AccountsConfig) (tokens : TokenBundle)
    (customLabel : String) (now : Int) : AccountsConfig :=
  let label := jsOrStr customLabel
    (jsOrStr (tokens.email.getD "")
      ("Account " ++ toString (cfg.accounts.length + 1)))
  match findAccountIndex cfg.accounts
      ⟨tokens.accountUuid, tokens.email, none⟩ with
  | some i => { cfg with accounts := mergeAt tokens customLabel cfg.accounts i }
  | none =>
      { cfg with accounts := cfg.accounts ++
          [⟨label, tokens.email, tokens.accountUuid, tokens.refresh,
            tokens.access, tokens.expires, now, none⟩] }

end ClaudeRotator

/-!
### Specification-side definitions

These definitions follow the words of the specification (spec.md §4.3) and
of the claims, for comparison against the implementation-side definitions
above.  They are deliberately *not* translated from the source.
-/

/-- Availability as the specification words it:
`isAvailable(account, now) = exhaustedAt == null || now − exhaustedAt > COOLDOWN`
(spec.md §4.3; cooldown constant 1 hour).  Unlike the implementation's
truthiness test, a stored `exhaustedAt = 0` is *not* equated with `null`
here. -/
def isAvailableSpec (a : Antigravity.Account) (now : Int) : Bool :=
  match a.exhaustedAt with
  | none => true
  | some t => now - t > Antigravity.COOLDOWN_MS

/-- The pool invariant of spec.md §3
(`0 ≤ currentIndex < len(accounts)` whenever `accounts` is non-empty),
strengthened on the empty pool (`currentIndex = 0`) to make it inductive:
the `add` handler appends without touching `currentIndex`, so preservation
needs the empty-pool index pinned at `0`. -/
@[reducible] def Inv (cfg : Antigravity.AccountsConfig) : Prop :=
  (cfg.accounts = [] ∧ cfg.currentIndex = 0) ∨
  (cfg.accounts ≠ [] ∧
    0 ≤ cfg.currentIndex ∧ cfg.currentIndex < (cfg.accounts.length : Int))

/-- No two distinct pool entries carry the same non-empty external account
id (`googleId`). -/
def ExtIdUnique (l : List Antigravity.Account) : Prop :=
  ∀ (i j : Nat) (a b : Antigravity.Account), i ≠ j →
    l[i]? = some a → l[j]? = some b →
    jsTruthyStr a.googleId = true → a.googleId ≠ b.googleId

/-!
### Concrete fixtures

Small concrete pools, token bundles and credentials used by the
counterexamples and the witnesses below.
-/

/-- A plain available Antigravity account. -/
def fxAvail : Antigravity.Account :=
  ⟨"a0", none, none, "r0", "t0", 0, "p0", 0, none⟩

/-- An account whose stored `exhaustedAt` is the number `0`. -/
def fxZero : Antigravity.Account :=
  ⟨"a1", none, none, "r1", "t1", 0, "p1", 0, some 0⟩

/-- An account marked exhausted at time `t`. -/
def fxExh (t : Int) : Antigravity.Account :=
  ⟨"a2", none, none, "r2", "t2", 0, "p2", 0, some t⟩

/-- A second plain available account with distinct identifiers. -/
def fxAvail2 : Antigravity.Account :=
  ⟨"a3", none, none, "r3", "t3", 0, "p3", 0, none⟩

/-- Entry with email `e1` and no external id. -/
def fxE1 : Antigravity.Account :=
  ⟨"A", some "e1", none, "rA", "tA", 0, "pA", 0, none⟩

/-- Entry with email `e2` and external id `g2`. -/
def fxG2 : Antigravity.Account :=
  ⟨"B", some "e2", some "g2", "rB", "tB", 0, "pB", 0, none⟩

/-- A token bundle whose external id matches `fxG2` while its email equals
`fxE1`'s. -/
def fxBundle : Antigravity.TokenBundle :=
  ⟨"rC", "tC", 0, "pC", some "e1", some "g2"⟩

/-- A token bundle with a fresh identity (no match in small fixture pools). -/
def fxBundleNew : Antigravity.TokenBundle :=
  ⟨"rN", "tN", 7, "pN", some "eN", some "gN"⟩

/-- A host OAuth credential whose refresh token matches `fxAvail`. -/
def fxCred : Antigravity.HostCred :=
  ⟨"oauth", "r0", "t0-new", 9, some "p0-new"⟩

/-- A Claude-rotator account used for the part_002 sync witness. -/
def fxCAcct : ClaudeRotator.Account :=
  ⟨"c0", none, none, "cr0", "ct0", 0, 0, none⟩

/-- A Claude-rotator host OAuth credential matching `fxCAcct`'s refresh
token. -/
def fxCCred : ClaudeRotator.HostCred :=
  ⟨"oauth", "cr0", "ct0-new", 9⟩

/-- The turn-end message of a rate-limited assistant turn. -/
def fxMsg : Antigravity.TurnMessage :=
  ⟨"assistant", "error", some "Error 429: quota exceeded"⟩

/-- A first-Claude-rotator account. -/
def fxV1Acct : ClaudeRotatorV1.Account :=
  ⟨"v0", "vr0", "vt0", 0, 0, none⟩

/-- A host OAuth credential matching `fxV1Acct`'s refresh token. -/
def fxV1Cred : ClaudeRotatorV1.HostCred :=
  ⟨"oauth", "vr0", "vt0-new", 9⟩

/-- A host OAuth credential matching no stored refresh token. -/
def fxV1CredMiss : ClaudeRotatorV1.HostCred :=
  ⟨"oauth", "vr-other", "vt-new", 9⟩

/-- A second-Claude-rotator pool entry with refresh token `cr`. -/
def fxCAcct2 : ClaudeRotator.Account :=
  ⟨"c1", some "ce1", some "cu1", "cr", "ct1", 0, 0, none⟩

/-- A token bundle sharing `fxCAcct2`'s refresh token but carrying a
different email and account uuid. -/
def fxCBundle : ClaudeRotator.TokenBundle :=
  ⟨"cr", "ct2", 3, some "ce2", some "cu2"⟩

/-- A token bundle whose account uuid matches `fxCAcct2`'s but whose refresh
token is fresh. -/
def fxCBundleDup : ClaudeRotator.TokenBundle :=
  ⟨"cr-new", "ct3", 4, some "ce3", some "cu1"⟩

/-!
## Helper lemmas
-/

theorem jsGet_some_bounds {l : List α} {i : Int} {a : α}
    (h : jsGet l i = some a) : 0 ≤ i ∧ i < (l.length : Int) := by
  unfold jsGet at h
  by_cases hi : i < 0
  · simp [hi] at h
  · rw [if_neg hi] at h
    rcases List.getElem?_eq_some_iff.mp h with ⟨hlt, _⟩
    omega

theorem jsGet_none_of_len_le {l : List α} {i : Int}
    (h : (l.length : Int) ≤ i) : jsGet l i = none := by
  unfold jsGet
  rw [if_neg (by omega)]
  exact List.getElem?_eq_none (by omega)

theorem jsGet_nonneg_eq {l : List α} {i : Int} (h : 0 ≤ i) :
    jsGet l i = l[i.toNat]? := by
  unfold jsGet
  rw [if_neg (by omega)]

theorem offsetIdx_bounds {ci : Int} {len : Nat} (hci : 0 ≤ ci)
    (hlen : 0 < len) (k : Nat) :
    0 ≤ Antigravity.offsetIdx ci len k ∧
      Antigravity.offsetIdx ci len k < (len : Int) := by
  unfold Antigravity.offsetIdx jsRem
  constructor
  · exact Int.tmod_nonneg _ (by omega)
  · exact Int.tmod_lt_of_pos _ (by omega)

theorem offsetIdx_ne_self {ci : Int} {len k : Nat} (hci : 0 ≤ ci)
    (hk1 : 1 ≤ k) (hk2 : k < len) :
    Antigravity.offsetIdx ci len k ≠ ci := by
  unfold Antigravity.offsetIdx jsRem
  rw [Int.tmod_eq_emod (by omega) (by omega)]
  by_cases hbig : (len : Int) ≤ ci
  · have : (ci + (k : Int)) % (len : Int) < (len : Int) :=
      Int.emod_lt_of_pos (ci + (k : Int)) (by omega)
    omega
  · by_cases hsmall : ci + (k : Int) < (len : Int)
    · rw [Int.emod_eq_of_lt (by omega) hsmall]
      omega
    · have h2 : (ci + (k : Int) - (len : Int)) % (len : Int)
          = (ci + (k : Int)) % (len : Int) :=
        Int.emod_sub_cancel (ci + (k : Int)) (len : Int)
      rw [← h2, Int.emod_eq_of_lt (by omega) (by omega)]
      omega

theorem ffa_range'_none_iff (accounts : List Antigravity.Account)
    (ci now : Int) (len : Nat) : ∀ (c s : Nat),
    (Antigravity.findFirstAvail accounts ci now len (List.range' s c) = none
      ↔ ∀ k, s ≤ k → k < s + c →
          Antigravity.availAtOffset accounts ci now len k = false) := by
  intro c
  induction c with
  | zero =>
    intro s
    constructor
    · intro _ k h1 h2; omega
    · intro _; rfl
  | succ c ih =>
    intro s
    rw [List.range'_succ]
    cases h : jsGet accounts (Antigravity.offsetIdx ci len s) with
    | none =>
      have hs : Antigravity.availAtOffset accounts ci now len s = false := by
        unfold Antigravity.availAtOffset
        rw [h]
      simp only [Antigravity.findFirstAvail, h]
      rw [ih (s + 1)]
      constructor
      · intro hall k h1 h2
        rcases Nat.eq_or_lt_of_le h1 with rfl | hlt
        · exact hs
        · exact hall k hlt (by omega)
      · intro hall k h1 h2
        exact hall k (by omega) (by omega)
    | some acc =>
      cases hA : Antigravity.isAvailableImpl acc now with
      | true =>
        have hs : Antigravity.availAtOffset accounts ci now len s = true := by
          unfold Antigravity.availAtOffset
          rw [h]; exact hA
        simp only [Antigravity.findFirstAvail, h, hA, if_true]
        constructor
        · intro hcontra; exact absurd hcontra (by simp)
        · intro hall
          have := hall s (le_refl s) (by omega)
          rw [hs] at this
          exact absurd this (by simp)
      | false =>
        have hs : Antigravity.availAtOffset accounts ci now len s = false := by
          unfold Antigravity.availAtOffset
          rw [h]; exact hA
        simp only [Antigravity.findFirstAvail, h, hA,
          Bool.false_eq_true, if_false]
        rw [ih (s + 1)]
        constructor
        · intro hall k h1 h2
          rcases Nat.eq_or_lt_of_le h1 with rfl | hlt
          · exact hs
          · exact hall k hlt (by omega)
        · intro hall k h1 h2
          exact hall k (by omega) (by omega)

theorem ffa_range'_some (accounts : List Antigravity.Account)
    (ci now : Int) (len : Nat) : ∀ (c s : Nat) (acc : Antigravity.Account)
    (idx : Int),
    Antigravity.findFirstAvail accounts ci now len (List.range' s c)
      = some (acc, idx) →
    ∃ k, s ≤ k ∧ k < s + c ∧ idx = Antigravity.offsetIdx ci len k ∧
      jsGet accounts idx = some acc ∧
      Antigravity.isAvailableImpl acc now = true ∧
      ∀ j, s ≤ j → j < k →
        Antigravity.availAtOffset accounts ci now len j = false := by
  intro c
  induction c with
  | zero =>
    intro s acc idx hcontra
    exact absurd hcontra (by simp [Antigravity.findFirstAvail])
  | succ c ih =>
    intro s acc idx hsome
    rw [List.range'_succ] at hsome
    cases h : jsGet accounts (Antigravity.offsetIdx ci len s) with
    | none =>
      have hs : Antigravity.availAtOffset accounts ci now len s = false := by
        unfold Antigravity.availAtOffset
        rw [h]
      simp only [Antigravity.findFirstAvail, h] at hsome
      rcases ih (s + 1) acc idx hsome with
        ⟨k, hk1, hk2, hk3, hk4, hk5, hk6⟩
      refine ⟨k, by omega, by omega, hk3, hk4, hk5, ?_⟩
      intro j hj1 hj2
      rcases Nat.eq_or_lt_of_le hj1 with rfl | hlt
      · exact hs
      · exact hk6 j hlt hj2
    | some a =>
      cases hA : Antigravity.isAvailableImpl a now with
      | true =>
        simp only [Antigravity.findFirstAvail, h, hA, if_true,
          Option.some.injEq, Prod.mk.injEq] at hsome
        rcases hsome with ⟨rfl, rfl⟩
        exact ⟨s, le_refl s, by omega, rfl, h, hA, fun j hj1 hj2 => by omega⟩
      | false =>
        have hs : Antigravity.availAtOffset accounts ci now len s = false := by
          unfold Antigravity.availAtOffset
          rw [h]; exact hA
        simp only [Antigravity.findFirstAvail, h, hA,
          Bool.false_eq_true, if_false] at hsome
        rcases ih (s + 1) acc idx hsome with
          ⟨k, hk1, hk2, hk3, hk4, hk5, hk6⟩
        refine ⟨k, by omega, by omega, hk3, hk4, hk5, ?_⟩
        intro j hj1 hj2
        rcases Nat.eq_or_lt_of_le hj1 with rfl | hlt
        · exact hs
        · exact hk6 j hlt hj2

theorem mem_insertSorted {x y : Int} : ∀ {l : List Int},
    y ∈ Antigravity.insertSorted x l ↔ y = x ∨ y ∈ l := by
  intro l
  induction l with
  | nil => simp [Antigravity.insertSorted]
  | cons z zs ih =>
    unfold Antigravity.insertSorted
    by_cases hxz : x ≤ z
    · rw [if_pos hxz]
      simp only [List.mem_cons]
    · rw [if_neg hxz]
      simp only [List.mem_cons, ih]
      tauto

theorem mem_sortAsc_of_mem : ∀ {l : List Int} {u : Int},
    u ∈ l → u ∈ Antigravity.sortAsc l := by
  intro l
  induction l with
  | nil => intro u hu; exact absurd hu (by simp)
  | cons z zs ihz =>
    intro u hu
    have hfold : Antigravity.sortAsc (z :: zs)
        = Antigravity.insertSorted z (Antigravity.sortAsc zs) := rfl
    rw [hfold, mem_insertSorted]
    rcases List.mem_cons.mp hu with rfl | huz
    · exact Or.inl rfl
    · exact Or.inr (ihz huz)

theorem sortAsc_head_min : ∀ (l : List Int) (m : Int),
    (Antigravity.sortAsc l).head? = some m → m ∈ l ∧ ∀ t ∈ l, m ≤ t := by
  intro l
  induction l with
  | nil => intro m h; exact absurd h (by simp [Antigravity.sortAsc])
  | cons x xs ih =>
    intro m h
    have hfold : Antigravity.sortAsc (x :: xs)
        = Antigravity.insertSorted x (Antigravity.sortAsc xs) := rfl
    rw [hfold] at h
    cases hx : Antigravity.sortAsc xs with
    | nil =>
      rw [hx] at h
      simp only [Antigravity.insertSorted, List.head?] at h
      cases h
      constructor
      · exact List.mem_cons_self x xs
      · intro t ht
        rcases List.mem_cons.mp ht with rfl | htl
        · exact le_refl t
        · exfalso
          have hmem : t ∈ Antigravity.sortAsc xs := mem_sortAsc_of_mem htl
          rw [hx] at hmem
          exact absurd hmem (by simp)
    | cons y ys =>
      rw [hx] at h
      have ihy := ih y
      rw [hx] at ihy
      have hy := ihy rfl
      unfold Antigravity.insertSorted at h
      by_cases hxy : x ≤ y
      · rw [if_pos hxy] at h
        simp only [List.head?] at h
        cases h
        refine ⟨List.mem_cons_self x xs, ?_⟩
        intro t ht
        rcases List.mem_cons.mp ht with rfl | htl
        · exact le_refl t
        · exact le_trans hxy (hy.2 t htl)
      · rw [if_neg hxy] at h
        simp only [List.head?] at h
        cases h
        refine ⟨List.mem_cons_of_mem x hy.1, ?_⟩
        intro t ht
        rcases List.mem_cons.mp ht with rfl | htl
        · omega
        · exact hy.2 t htl

theorem sortAsc_head_none_iff : ∀ (l : List Int),
    (Antigravity.sortAsc l).head? = none ↔ l = [] := by
  intro l
  cases l with
  | nil => simp [Antigravity.sortAsc]
  | cons x xs =>
    constructor
    · intro h
      exfalso
      have hfold : Antigravity.sortAsc (x :: xs)
          = Antigravity.insertSorted x (Antigravity.sortAsc xs) := rfl
      rw [hfold] at h
      cases hx : Antigravity.sortAsc xs with
      | nil => rw [hx] at h; simp [Antigravity.insertSorted] at h
      | cons y ys =>
        rw [hx] at h
        unfold Antigravity.insertSorted at h
        by_cases hxy : x ≤ y
        · rw [if_pos hxy] at h; simp at h
        · rw [if_neg hxy] at h; simp at h
    · intro h; exact absurd h (by simp)

theorem firstIdx_some_spec {p : α → Bool} : ∀ {l : List α} {i : Nat},
    firstIdx p l = some i →
    i < l.length ∧ (∃ a, l[i]? = some a ∧ p a = true) ∧
      ∀ (j : Nat) (b : α), j < i → l[j]? = some b → p b = false := by
  intro l
  induction l with
  | nil => intro i h; exact absurd h (by simp [firstIdx])
  | cons x xs ih =>
    intro i h
    unfold firstIdx at h
    by_cases hx : p x
    · rw [if_pos hx] at h
      cases h
      refine ⟨by simp, ⟨x, by simp, hx⟩, ?_⟩
      intro j b hj _
      omega
    · rw [if_neg hx] at h
      cases hfi : firstIdx p xs with
      | none => rw [hfi] at h; exact absurd h (by simp)
      | some i0 =>
        rw [hfi] at h
        obtain rfl : i = i0 + 1 := by simpa using h.symm
        rcases ih hfi with ⟨h1, ⟨a, h2, h3⟩, h4⟩
        refine ⟨by simp only [List.length_cons]; omega,
          ⟨a, by simpa using h2, h3⟩, ?_⟩
        intro j b hj hb
        cases j with
        | zero =>
          simp only [List.getElem?_cons_zero, Option.some.injEq] at hb
          subst hb
          exact Bool.eq_false_iff.mpr hx
        | succ j0 =>
          simp only [List.getElem?_cons_succ] at hb
          exact h4 j0 b (by omega) hb

theorem setIdx_getElem? (f : α → α) : ∀ (l : List α) (i j : Nat),
    (setIdx f l i)[j]? = if i = j then (l[j]?).map f else l[j]? := by
  intro l
  induction l with
  | nil =>
    intro i j
    unfold setIdx
    by_cases h : i = j <;> simp [h]
  | cons a as ih =>
    intro i j
    cases i with
    | zero =>
      cases j with
      | zero => simp [setIdx]
      | succ j0 => simp [setIdx]
    | succ i0 =>
      cases j with
      | zero => simp [setIdx]
      | succ j0 =>
        have h := ih i0 j0
        simp only [setIdx, List.getElem?_cons_succ, h]
        by_cases hij : i0 = j0
        · rw [if_pos hij, if_pos (by omega)]
        · rw [if_neg hij, if_neg (by omega)]

theorem setIdx_length (f : α → α) : ∀ (l : List α) (i : Nat),
    (setIdx f l i).length = l.length := by
  intro l
  induction l with
  | nil => intro i; rfl
  | cons a as ih =>
    intro i
    cases i with
    | zero => rfl
    | succ i0 => simp [setIdx, ih i0]

theorem firstIdx_none_spec {p : α → Bool} : ∀ {l : List α},
    firstIdx p l = none → ∀ (j : Nat) (b : α), l[j]? = some b → p b = false := by
  intro l
  induction l with
  | nil => intro _ j b hb; exact absurd hb (by simp)
  | cons x xs ih =>
    intro h j b hb
    unfold firstIdx at h
    by_cases hx : p x
    · rw [if_pos hx] at h; exact absurd h (by simp)
    · rw [if_neg hx] at h
      cases hfi : firstIdx p xs with
      | some i0 => rw [hfi] at h; exact absurd h (by simp)
      | none =>
        cases j with
        | zero =>
          simp only [List.getElem?_cons_zero, Option.some.injEq] at hb
          subst hb
          exact Bool.eq_false_iff.mpr hx
        | succ j0 =>
          simp only [List.getElem?_cons_succ] at hb
          exact ih hfi j0 b hb

/-!
## Claim theorems
-/

/-- C2, counterexample: the claim asserts that the exhaustion detector of
*each* rotator variant matches `"RESOURCE_EXHAUSTED"`, but the two Claude
rotators' pattern `/rate.?limit|too many requests|429/i` has no
resource-exhausted alternative and rejects that input. -/
theorem C2_counterexample :
    testPattern ClaudeRotator.RATE_LIMIT_PATTERN "RESOURCE_EXHAUSTED" = false
    ∧ testPattern ClaudeRotatorV1.RATE_LIMIT_PATTERN "RESOURCE_EXHAUSTED"
        = false := by
  decide

/-- C2 (amended): the Antigravity detector returns `true` on all three
positive vectors; the two Claude detectors return `true` on
`"429 Too Many Requests"` and `"rate limit exceeded"` but `false` on
`"RESOURCE_EXHAUSTED"`; every variant returns `false` on
`"503 Service Unavailable"` and `"overloaded_error"`. -/
theorem C2_detector_vectors :
    (testPattern Antigravity.RATE_LIMIT_PATTERN "429 Too Many Requests" = true
      ∧ testPattern Antigravity.RATE_LIMIT_PATTERN "rate limit exceeded" = true
      ∧ testPattern Antigravity.RATE_LIMIT_PATTERN "RESOURCE_EXHAUSTED" = true
      ∧ testPattern Antigravity.RATE_LIMIT_PATTERN "503 Service Unavailable"
          = false
      ∧ testPattern Antigravity.RATE_LIMIT_PATTERN "overloaded_error" = false)
    ∧ (testPattern ClaudeRotatorV1.RATE_LIMIT_PATTERN "429 Too Many Requests"
          = true
      ∧ testPattern ClaudeRotatorV1.RATE_LIMIT_PATTERN "rate limit exceeded"
          = true
      ∧ testPattern ClaudeRotatorV1.RATE_LIMIT_PATTERN "RESOURCE_EXHAUSTED"
          = false
      ∧ testPattern ClaudeRotatorV1.RATE_LIMIT_PATTERN "503 Service Unavailable"
          = false
      ∧ testPattern ClaudeRotatorV1.RATE_LIMIT_PATTERN "overloaded_error"
          = false)
    ∧ (testPattern ClaudeRotator.RATE_LIMIT_PATTERN "429 Too Many Requests"
          = true
      ∧ testPattern ClaudeRotator.RATE_LIMIT_PATTERN "rate limit exceeded"
          = true
      ∧ testPattern ClaudeRotator.RATE_LIMIT_PATTERN "RESOURCE_EXHAUSTED"
          = false
      ∧ testPattern ClaudeRotator.RATE_LIMIT_PATTERN "503 Service Unavailable"
          = false
      ∧ testPattern ClaudeRotator.RATE_LIMIT_PATTERN "overloaded_error"
          = false) := by
  decide

/-- C8: for every pool configuration, including the empty one, loading the
file written by `saveAccounts` yields a configuration semantically equal to
the saved one — same account sequence with all fields, same
`currentIndex`. -/
theorem C8_save_load_roundtrip (cfg : Antigravity.AccountsConfig) :
    Antigravity.loadAccounts (Antigravity.savedFile cfg) = cfg := by
  cases cfg
  rfl

/-- C9: an account whose stored `exhaustedAt` equals the number `0` is
classified available by the implementation's availability test at every
time, exactly as if `exhaustedAt` were `null`: the code tests JavaScript
falsiness of `exhaustedAt`, so the timestamp `0` can never put an account
into cooldown. -/
theorem C9_zero_exhaustedAt_available (a : Antigravity.Account) (now : Int)
    (h : a.exhaustedAt = some 0) :
    Antigravity.isAvailableImpl a now = true ∧
    Antigravity.isAvailableImpl a now
      = Antigravity.isAvailableImpl { a with exhaustedAt := none } now := by
  unfold Antigravity.isAvailableImpl jsTruthyNum
  rw [h]
  simp

/-- C9, witness instance. -/
theorem C9_witness :
    Antigravity.isAvailableImpl fxZero 77 = true ∧
    Antigravity.isAvailableImpl fxZero 77
      = Antigravity.isAvailableImpl { fxZero with exhaustedAt := none } 77 :=
  C9_zero_exhaustedAt_available fxZero 77 rfl

/-- C1, counterexample: the claim defines availability as
`exhaustedAt = null ∨ now − exhaustedAt > 1 hour` and asserts that
`findNextAvailable` returns `none` when no scanned account satisfies it.
On a 2-account pool whose only scanned account has `exhaustedAt = 0` at
`now = 1000`, that account fails the claim's predicate
(`1000 − 0 ≤ 3600000`), yet the implementation (which tests JavaScript
falsiness of `exhaustedAt`) returns it. -/
theorem C1_counterexample :
    Antigravity.findNextAvailable ⟨[fxAvail, fxZero], 0⟩ 1000
      = some (fxZero, 1)
    ∧ isAvailableSpec fxZero 1000 = false := by
  decide

/-- C1 (amended): with availability as implemented
(`exhaustedAt` null **or `0`**, or `now − exhaustedAt > 1 hour`),
`findNextAvailable` on a pool with `currentIndex ≥ 0` examines indices
`(currentIndex + k) mod len` for `k = 1, …, len−1` in increasing order and
returns the first available account with its index; it returns `none`
exactly when no scanned offset holds an available account (in particular on
a 1-account pool), and a returned index is never `currentIndex` itself. -/
theorem C1_scan (cfg : Antigravity.AccountsConfig) (now : Int)
    (hci : 0 ≤ cfg.currentIndex) :
    (cfg.accounts.length = 1 → Antigravity.findNextAvailable cfg now = none)
    ∧ (Antigravity.findNextAvailable cfg now = none ↔
        ∀ k, 1 ≤ k → k < cfg.accounts.length →
          Antigravity.availAtOffset cfg.accounts cfg.currentIndex now
            cfg.accounts.length k = false)
    ∧ (∀ (acc : Antigravity.Account) (idx : Int),
        Antigravity.findNextAvailable cfg now = some (acc, idx) →
        idx ≠ cfg.currentIndex ∧
        ∃ k, 1 ≤ k ∧ k < cfg.accounts.length ∧
          idx = Antigravity.offsetIdx cfg.currentIndex cfg.accounts.length k ∧
          jsGet cfg.accounts idx = some acc ∧
          Antigravity.isAvailableImpl acc now = true ∧
          ∀ j, 1 ≤ j → j < k →
            Antigravity.availAtOffset cfg.accounts cfg.currentIndex now
              cfg.accounts.length j = false) := by
  have hiff := ffa_range'_none_iff cfg.accounts cfg.currentIndex now
    cfg.accounts.length (cfg.accounts.length - 1) 1
  have hiff2 : Antigravity.findNextAvailable cfg now = none ↔
      ∀ k, 1 ≤ k → k < cfg.accounts.length →
        Antigravity.availAtOffset cfg.accounts cfg.currentIndex now
          cfg.accounts.length k = false := by
    unfold Antigravity.findNextAvailable
    rw [hiff]
    constructor
    · intro h k h1 h2
      exact h k h1 (by omega)
    · intro h k h1 h2
      exact h k h1 (by omega)
  refine ⟨?_, hiff2, ?_⟩
  · intro hlen
    rw [hiff2]
    intro k h1 h2
    omega
  · intro acc idx hsome
    unfold Antigravity.findNextAvailable at hsome
    rcases ffa_range'_some cfg.accounts cfg.currentIndex now
      cfg.accounts.length (cfg.accounts.length - 1) 1 acc idx hsome with
      ⟨k, hk1, hk2, hk3, hk4, hk5, hk6⟩
    have hklen : k < cfg.accounts.length := by omega
    refine ⟨?_, k, hk1, hklen, hk3, hk4, hk5, hk6⟩
    rw [hk3]
    exact offsetIdx_ne_self hci hk1 hklen

/-- C1, witness instance: on a 2-account pool with the current account
exhausted, the amended scan finds the other account at index `1 ≠ 0`. -/
theorem C1_scan_witness :
    Antigravity.findNextAvailable ⟨[fxExh 10, fxAvail], 0⟩ 20
      = some (fxAvail, 1)
    ∧ (1 : Int) ≠ (0 : Int) := by
  refine ⟨by decide, ?_⟩
  have h := ((C1_scan ⟨[fxExh 10, fxAvail], 0⟩ 20 (by decide)).2.2
    fxAvail 1 (by decide)).1
  exact h

/-- C4: an invalid removal index (`NaN`, negative, or `≥ length`) produces
an error and mutates nothing; a valid index `i` deletes exactly the entry at
`i` and re-clamps `currentIndex` — `0` if the pool becomes empty, new length
minus one if `currentIndex` is at least the new length, decremented by one
if `currentIndex > i`, unchanged otherwise — and persists. -/
theorem C4_remove (cfg : Antigravity.AccountsConfig) :
    (Antigravity.removeCmd cfg none = ⟨cfg, true, false⟩)
    ∧ (∀ i : Int, i < 0 ∨ (cfg.accounts.length : Int) ≤ i →
        Antigravity.removeCmd cfg (some i) = ⟨cfg, true, false⟩)
    ∧ (∀ i : Int, 0 ≤ i → i < (cfg.accounts.length : Int) →
        (Antigravity.removeCmd cfg (some i)).errored = false
        ∧ (Antigravity.removeCmd cfg (some i)).saved = true
        ∧ (Antigravity.removeCmd cfg (some i)).cfg.accounts
            = cfg.accounts.take i.toNat ++ cfg.accounts.drop (i.toNat + 1)
        ∧ ((Antigravity.removeCmd cfg (some i)).cfg.accounts = [] →
            (Antigravity.removeCmd cfg (some i)).cfg.currentIndex = 0)
        ∧ ((Antigravity.removeCmd cfg (some i)).cfg.accounts ≠ [] →
            ((Antigravity.removeCmd cfg (some i)).cfg.accounts.length : Int)
                ≤ cfg.currentIndex →
            (Antigravity.removeCmd cfg (some i)).cfg.currentIndex
              = ((Antigravity.removeCmd cfg (some i)).cfg.accounts.length : Int)
                  - 1)
        ∧ ((Antigravity.removeCmd cfg (some i)).cfg.accounts ≠ [] →
            cfg.currentIndex
                < ((Antigravity.removeCmd cfg (some i)).cfg.accounts.length
                    : Int) →
            i < cfg.currentIndex →
            (Antigravity.removeCmd cfg (some i)).cfg.currentIndex
              = cfg.currentIndex - 1)
        ∧ ((Antigravity.removeCmd cfg (some i)).cfg.accounts ≠ [] →
            cfg.currentIndex
                < ((Antigravity.removeCmd cfg (some i)).cfg.accounts.length
                    : Int) →
            ¬i < cfg.currentIndex →
            (Antigravity.removeCmd cfg (some i)).cfg.currentIndex
              = cfg.currentIndex)) := by
  refine ⟨rfl, ?_, ?_⟩
  · intro i hi
    simp only [Antigravity.removeCmd]
    rw [if_pos hi]
  · intro i h0 hlen
    have hguard : ¬(i < 0 ∨ (cfg.accounts.length : Int) ≤ i) := by omega
    have hres : Antigravity.removeCmd cfg (some i) =
        ⟨⟨cfg.accounts.eraseIdx i.toNat,
          (if ((cfg.accounts.eraseIdx i.toNat).length : Int) = 0 then 0
           else if ((cfg.accounts.eraseIdx i.toNat).length : Int)
              ≤ cfg.currentIndex then
             ((cfg.accounts.eraseIdx i.toNat).length : Int) - 1
           else if i < cfg.currentIndex then cfg.currentIndex - 1
           else cfg.currentIndex)⟩, false, true⟩ := by
      simp only [Antigravity.removeCmd]
      rw [if_neg hguard]
    rw [hres]
    dsimp only
    have htake : cfg.accounts.eraseIdx i.toNat
        = cfg.accounts.take i.toNat ++ cfg.accounts.drop (i.toNat + 1) :=
      List.eraseIdx_eq_take_drop_succ cfg.accounts i.toNat
    refine ⟨rfl, rfl, htake, ?_, ?_, ?_, ?_⟩
    · intro hnil
      rw [if_pos (by rw [hnil]; rfl)]
    · intro hnil hle
      have hlen0 : ¬((cfg.accounts.eraseIdx i.toNat).length : Int) = 0 := by
        intro hc
        exact hnil (List.length_eq_zero.mp (by omega))
      rw [if_neg hlen0, if_pos hle]
    · intro hnil hlt hilt
      have hlen0 : ¬((cfg.accounts.eraseIdx i.toNat).length : Int) = 0 := by
        intro hc
        exact hnil (List.length_eq_zero.mp (by omega))
      rw [if_neg hlen0, if_neg (by omega), if_pos hilt]
    · intro hnil hlt hige
      have hlen0 : ¬((cfg.accounts.eraseIdx i.toNat).length : Int) = 0 := by
        intro hc
        exact hnil (List.length_eq_zero.mp (by omega))
      rw [if_neg hlen0, if_neg (by omega), if_neg hige]

/-- C4, witness instance: `remove 0` on a 3-account pool with
`currentIndex = 1` keeps the other two accounts and decrements the index. -/
theorem C4_remove_witness :
    (Antigravity.removeCmd ⟨[fxAvail, fxZero, fxAvail2], 1⟩ (some 0)).cfg.accounts
      = ([fxAvail, fxZero, fxAvail2].take 0
          ++ [fxAvail, fxZero, fxAvail2].drop 1)
    ∧ (Antigravity.removeCmd ⟨[fxAvail, fxZero, fxAvail2], 1⟩
        (some 0)).cfg.currentIndex = 1 - 1 := by
  have h := (C4_remove ⟨[fxAvail, fxZero, fxAvail2], 1⟩).2.2 0
    (by decide) (by decide)
  exact ⟨h.2.2.1, h.2.2.2.2.2.1 (by decide) (by decide) (by decide)⟩

/-- C5: with at most one account, or when no account is available,
`rotateAccount` returns `false` and changes neither the pool, nor the
persisted file, nor the host credential store — in the all-exhausted case
reporting as ETA the minimum positive remaining cooldown over exhausted
accounts, rounded up to minutes; when an account is found it sets
`currentIndex` to the selected index, writes that account's full credential
(refresh and access tokens, expiry, and the provider-specific project id)
into the host credential store, persists the pool, and returns `true`. -/
theorem C5_rotate (cfg : Antigravity.AccountsConfig) (now : Int) :
    (cfg.accounts.length ≤ 1 →
      Antigravity.rotateAccount cfg now = ⟨cfg, false, none, none, none⟩)
    ∧ (1 < cfg.accounts.length →
        Antigravity.findNextAvailable cfg now = none →
        (Antigravity.rotateAccount cfg now).cfg = cfg
        ∧ (Antigravity.rotateAccount cfg now).success = false
        ∧ (Antigravity.rotateAccount cfg now).written = none
        ∧ (Antigravity.rotateAccount cfg now).saved = none
        ∧ ((Antigravity.rotateAccount cfg now).etaMins = none →
            Antigravity.remainingCooldowns cfg.accounts now = [])
        ∧ (∀ m, (Antigravity.rotateAccount cfg now).etaMins = some m →
            ∃ s, s ∈ Antigravity.remainingCooldowns cfg.accounts now
              ∧ (∀ t ∈ Antigravity.remainingCooldowns cfg.accounts now, s ≤ t)
              ∧ m = Antigravity.ceilMins s))
    ∧ (∀ (acc : Antigravity.Account) (idx : Int),
        Antigravity.findNextAvailable cfg now = some (acc, idx) →
        Antigravity.rotateAccount cfg now
          = ⟨⟨cfg.accounts, idx⟩, true,
              some ⟨acc.refresh, acc.access, acc.expires, acc.projectId⟩,
              some ⟨cfg.accounts, idx⟩, none⟩) := by
  refine ⟨?_, ?_, ?_⟩
  · intro h
    unfold Antigravity.rotateAccount
    rw [if_pos h]
  · intro hlen hnone
    have hred : Antigravity.rotateAccount cfg now =
        ⟨cfg, false, none, none,
          (Antigravity.soonestRemaining cfg.accounts now).map
            Antigravity.ceilMins⟩ := by
      unfold Antigravity.rotateAccount
      rw [if_neg (by omega), hnone]
    rw [hred]
    refine ⟨rfl, rfl, rfl, rfl, ?_, ?_⟩
    · intro hmapnone
      have hs : Antigravity.soonestRemaining cfg.accounts now = none :=
        Option.map_eq_none.mp hmapnone
      unfold Antigravity.soonestRemaining at hs
      exact (sortAsc_head_none_iff _).mp hs
    · intro m hm
      rcases Option.map_eq_some.mp hm with ⟨s, hs, rfl⟩
      unfold Antigravity.soonestRemaining at hs
      rcases sortAsc_head_min _ s hs with ⟨hmem, hle⟩
      exact ⟨s, hmem, hle, rfl⟩
  · intro acc idx hsome
    have hcopy := hsome
    unfold Antigravity.findNextAvailable at hcopy
    rcases ffa_range'_some cfg.accounts cfg.currentIndex now
      cfg.accounts.length (cfg.accounts.length - 1) 1 acc idx hcopy with
      ⟨k, hk1, hk2, _, _, _, _⟩
    have hlen : 1 < cfg.accounts.length := by omega
    unfold Antigravity.rotateAccount
    rw [if_neg (by omega), hsome]

/-- C5, witness instances: a successful rotation on a 2-account pool, and a
no-op failure with both accounts in cooldown. -/
theorem C5_rotate_witness :
    Antigravity.rotateAccount ⟨[fxExh 10, fxAvail], 0⟩ 20
      = ⟨⟨[fxExh 10, fxAvail], 1⟩, true, some ⟨"r0", "t0", 0, "p0"⟩,
          some ⟨[fxExh 10, fxAvail], 1⟩, none⟩
    ∧ (Antigravity.rotateAccount ⟨[fxExh 10, fxExh 3600000], 0⟩ 20).success
        = false
    ∧ (Antigravity.rotateAccount ⟨[fxExh 10, fxExh 3600000], 0⟩ 20).cfg
        = ⟨[fxExh 10, fxExh 3600000], 0⟩ := by
  refine ⟨?_, ?_, ?_⟩
  · exact (C5_rotate ⟨[fxExh 10, fxAvail], 0⟩ 20).2.2 fxAvail 1 (by decide)
  · exact ((C5_rotate ⟨[fxExh 10, fxExh 3600000], 0⟩ 20).2.1
      (by decide) (by decide)).2.1
  · exact ((C5_rotate ⟨[fxExh 10, fxExh 3600000], 0⟩ 20).2.1
      (by decide) (by decide)).1

theorem addOrMerge_merge_acc {cfg : Antigravity.AccountsConfig}
    {t : Antigravity.TokenBundle} {cl : String} {now : Int} {i : Nat}
    (hfi : Antigravity.findAccountIndex cfg.accounts
      ⟨t.googleId, t.email, some t.refresh⟩ = some i) :
    (Antigravity.addOrMerge cfg t cl now).accounts
      = Antigravity.mergeAt t cl cfg.accounts i := by
  unfold Antigravity.addOrMerge
  rw [hfi]

theorem addOrMerge_append_acc {cfg : Antigravity.AccountsConfig}
    {t : Antigravity.TokenBundle} {cl : String} {now : Int}
    (hfi : Antigravity.findAccountIndex cfg.accounts
      ⟨t.googleId, t.email, some t.refresh⟩ = none) :
    (Antigravity.addOrMerge cfg t cl now).accounts
      = cfg.accounts ++
        [⟨jsOrStr cl (jsOrStr (t.email.getD "")
            ("Account " ++ toString (cfg.accounts.length + 1))),
          t.email, t.googleId, t.refresh, t.access, t.expires, t.projectId,
          now, none⟩] := by
  unfold Antigravity.addOrMerge
  rw [hfi]

theorem addOrMerge_ci (cfg : Antigravity.AccountsConfig)
    (t : Antigravity.TokenBundle) (cl : String) (now : Int) :
    (Antigravity.addOrMerge cfg t cl now).currentIndex = cfg.currentIndex := by
  unfold Antigravity.addOrMerge
  cases Antigravity.findAccountIndex cfg.accounts
    ⟨t.googleId, t.email, some t.refresh⟩ <;> rfl

theorem findAccountIndex_refresh_only
    (accounts : List Antigravity.Account) (r : String) :
    Antigravity.findAccountIndex accounts ⟨none, none, some r⟩
      = (if r = "" then none
         else firstIdx (fun a => some a.refresh == some r) accounts) := by
  unfold Antigravity.findAccountIndex
  by_cases hr : r = "" <;> simp [jsTruthyStr, hr]

theorem ag_syncIdx_found {cfg : Antigravity.AccountsConfig}
    {cred : Antigravity.HostCred} {i : Nat}
    (hfi : Antigravity.findAccountIndex cfg.accounts
      ⟨none, none, some cred.refresh⟩ = some i) :
    Antigravity.syncIdx cfg cred = (i : Int) := by
  unfold Antigravity.syncIdx
  rw [hfi]
  simp only []
  rw [if_neg]
  intro hc
  omega

theorem ag_syncIdx_fallback {cfg : Antigravity.AccountsConfig}
    {cred : Antigravity.HostCred}
    (hfi : Antigravity.findAccountIndex cfg.accounts
      ⟨none, none, some cred.refresh⟩ = none)
    (hlt : cfg.currentIndex < (cfg.accounts.length : Int)) :
    Antigravity.syncIdx cfg cred = cfg.currentIndex := by
  unfold Antigravity.syncIdx
  rw [hfi]
  simp only []
  rw [if_pos]
  constructor
  · omega
  · exact hlt

theorem ag_syncIdx_miss {cfg : Antigravity.AccountsConfig}
    {cred : Antigravity.HostCred}
    (hfi : Antigravity.findAccountIndex cfg.accounts
      ⟨none, none, some cred.refresh⟩ = none)
    (hge : (cfg.accounts.length : Int) ≤ cfg.currentIndex) :
    Antigravity.syncIdx cfg cred = -1 := by
  unfold Antigravity.syncIdx
  rw [hfi]
  simp only []
  rw [if_neg]
  intro hc
  omega

theorem ag_sync_some_eq {cfg : Antigravity.AccountsConfig}
    {cred : Antigravity.HostCred}
    (htyp : cred.typ = "oauth")
    (hin : 0 ≤ Antigravity.syncIdx cfg cred
      ∧ Antigravity.syncIdx cfg cred < (cfg.accounts.length : Int)) :
    Antigravity.syncFromAuth cfg (some cred)
      = ⟨⟨Antigravity.updateLiveAt cred cfg.accounts
            (Antigravity.syncIdx cfg cred).toNat,
          Antigravity.syncIdx cfg cred⟩, true⟩ := by
  simp only [Antigravity.syncFromAuth]
  rw [if_neg (by simp [htyp]), if_pos hin]

theorem ag_sync_noop {cfg : Antigravity.AccountsConfig}
    {cred : Antigravity.HostCred}
    (htyp : cred.typ = "oauth")
    (hout : ¬(0 ≤ Antigravity.syncIdx cfg cred
      ∧ Antigravity.syncIdx cfg cred < (cfg.accounts.length : Int))) :
    Antigravity.syncFromAuth cfg (some cred) = ⟨cfg, false⟩ := by
  simp only [Antigravity.syncFromAuth]
  rw [if_neg (by simp [htyp]), if_neg hout]

theorem Inv_of_len_eq {cfg cfg' : Antigravity.AccountsConfig}
    (hlen : cfg'.accounts.length = cfg.accounts.length)
    (hci : cfg'.currentIndex = cfg.currentIndex)
    (hInv : Inv cfg) : Inv cfg' := by
  rcases hInv with ⟨hn, hc⟩ | ⟨hne, h0, hlt⟩
  · left
    constructor
    · refine List.length_eq_zero.mp ?_
      rw [hlen, hn]
      rfl
    · rw [hci, hc]
  · right
    have hlp : 0 < cfg'.accounts.length := by
      rw [hlen]
      exact List.length_pos.mpr hne
    refine ⟨List.length_pos.mp hlp, ?_, ?_⟩
    · rw [hci]; exact h0
    · rw [hci, hlen]; exact hlt

theorem Inv_mk (accounts : List Antigravity.Account) (ci : Int) :
    Inv ⟨accounts, ci⟩ ↔
      ((accounts = [] ∧ ci = 0) ∨
       (accounts ≠ [] ∧ 0 ≤ ci ∧ ci < (accounts.length : Int))) := Iff.rfl

/-- C3, counterexample: `loadAccounts` does not validate `currentIndex`, so
a well-formed file carrying one account and `currentIndex = 5` loads into a
state that violates the claimed invariant. -/
theorem C3_counterexample :
    (Antigravity.loadAccounts
        (.parsed (some [fxAvail]) (some 5))).accounts ≠ []
    ∧ ¬((Antigravity.loadAccounts
          (.parsed (some [fxAvail]) (some 5))).currentIndex
        < ((Antigravity.loadAccounts
            (.parsed (some [fxAvail]) (some 5))).accounts.length : Int)) := by
  decide

/-- C3 (amended): the invariant `0 ≤ currentIndex < accounts.length` on
non-empty pools (with `currentIndex = 0` on the empty pool) is established
by `loadAccounts` on a missing or malformed file, and preserved by every
operation — add/merge, remove, rotate, reset, identify, auto-import and
sync; `loadAccounts` on arbitrary well-formed content does *not* establish
it (see the counterexample). -/
theorem C3_invariant_ops :
    (Inv (Antigravity.loadAccounts .missing)
      ∧ Inv (Antigravity.loadAccounts .malformed))
    ∧ (∀ (cfg : Antigravity.AccountsConfig) (t : Antigravity.TokenBundle)
        (cl : String) (now : Int), Inv cfg →
        Inv (Antigravity.addOrMerge cfg t cl now))
    ∧ (∀ (cfg : Antigravity.AccountsConfig) (arg : Option Int), Inv cfg →
        Inv (Antigravity.removeCmd cfg arg).cfg)
    ∧ (∀ (cfg : Antigravity.AccountsConfig) (now : Int), Inv cfg →
        Inv (Antigravity.rotateAccount cfg now).cfg)
    ∧ (∀ cfg : Antigravity.AccountsConfig, Inv cfg →
        Inv (Antigravity.resetCmd cfg).1)
    ∧ (∀ (cfg : Antigravity.AccountsConfig)
        (oracle : Nat → Option Antigravity.RefreshOutcome), Inv cfg →
        Inv (Antigravity.identifyRun cfg oracle))
    ∧ (∀ (cfg : Antigravity.AccountsConfig)
        (cred? : Option Antigravity.HostCred) (now : Int), Inv cfg →
        Inv (Antigravity.autoImportFromAuth cfg cred? now))
    ∧ (∀ (cfg : Antigravity.AccountsConfig)
        (cred? : Option Antigravity.HostCred), Inv cfg →
        Inv (Antigravity.syncFromAuth cfg cred?).cfg) := by
  refine ⟨⟨by decide, by decide⟩, ?_, ?_, ?_, ?_, ?_, ?_, ?_⟩
  · -- addOrMerge
    intro cfg t cl now hInv
    cases hfi : Antigravity.findAccountIndex cfg.accounts
        ⟨t.googleId, t.email, some t.refresh⟩ with
    | some i =>
      refine Inv_of_len_eq ?_ (addOrMerge_ci cfg t cl now) hInv
      rw [addOrMerge_merge_acc hfi]
      exact setIdx_length _ _ _
    | none =>
      have hacc := @addOrMerge_append_acc cfg t cl now hfi
      have hci := addOrMerge_ci cfg t cl now
      have hlen : (Antigravity.addOrMerge cfg t cl now).accounts.length
          = cfg.accounts.length + 1 := by
        rw [hacc]
        simp
      rcases hInv with ⟨hn, hc⟩ | ⟨hne, h0, hlt⟩
      · right
        refine ⟨List.length_pos.mp (by omega), ?_, ?_⟩
        · rw [hci, hc]
        · rw [hci, hc, hlen]
          omega
      · right
        refine ⟨List.length_pos.mp (by omega), ?_, ?_⟩
        · rw [hci]; exact h0
        · rw [hci, hlen]
          push_cast
          omega
  · -- removeCmd
    intro cfg arg hInv
    cases arg with
    | none => exact hInv
    | some i =>
      by_cases hvalid : i < 0 ∨ (cfg.accounts.length : Int) ≤ i
      · have : Antigravity.removeCmd cfg (some i) = ⟨cfg, true, false⟩ := by
          simp only [Antigravity.removeCmd]
          rw [if_pos hvalid]
        rw [this]
        exact hInv
      · have h0i : 0 ≤ i := by omega
        have hilen : i < (cfg.accounts.length : Int) := by omega
        have hres : Antigravity.removeCmd cfg (some i) =
            ⟨⟨cfg.accounts.eraseIdx i.toNat,
              (if ((cfg.accounts.eraseIdx i.toNat).length : Int) = 0 then 0
               else if ((cfg.accounts.eraseIdx i.toNat).length : Int)
                  ≤ cfg.currentIndex then
                 ((cfg.accounts.eraseIdx i.toNat).length : Int) - 1
               else if i < cfg.currentIndex then cfg.currentIndex - 1
               else cfg.currentIndex)⟩, false, true⟩ := by
          simp only [Antigravity.removeCmd]
          rw [if_neg hvalid]
        have hcfg : (Antigravity.removeCmd cfg (some i)).cfg =
            ⟨cfg.accounts.eraseIdx i.toNat,
              (if ((cfg.accounts.eraseIdx i.toNat).length : Int) = 0 then 0
               else if ((cfg.accounts.eraseIdx i.toNat).length : Int)
                  ≤ cfg.currentIndex then
                 ((cfg.accounts.eraseIdx i.toNat).length : Int) - 1
               else if i < cfg.currentIndex then cfg.currentIndex - 1
               else cfg.currentIndex)⟩ := by
          rw [hres]
        rw [hcfg, Inv_mk]
        have hone : (cfg.accounts.eraseIdx i.toNat).length + 1
            = cfg.accounts.length :=
          List.length_eraseIdx_add_one (by omega)
        rcases hInv with ⟨hn, hc⟩ | ⟨hne, hci0, hcilt⟩
        · exfalso
          rw [hn] at hilen
          simp at hilen
          omega
        · by_cases h1 : ((cfg.accounts.eraseIdx i.toNat).length : Int) = 0
          · left
            constructor
            · exact List.length_eq_zero.mp (by omega)
            · rw [if_pos h1]
          · right
            refine ⟨List.length_pos.mp (by omega), ?_, ?_⟩
            · rw [if_neg h1]
              by_cases h2 : ((cfg.accounts.eraseIdx i.toNat).length : Int)
                  ≤ cfg.currentIndex
              · rw [if_pos h2]; omega
              · rw [if_neg h2]
                by_cases h3 : i < cfg.currentIndex
                · rw [if_pos h3]; omega
                · rw [if_neg h3]; omega
            · rw [if_neg h1]
              by_cases h2 : ((cfg.accounts.eraseIdx i.toNat).length : Int)
                  ≤ cfg.currentIndex
              · rw [if_pos h2]; omega
              · rw [if_neg h2]
                by_cases h3 : i < cfg.currentIndex
                · rw [if_pos h3]; omega
                · rw [if_neg h3]; omega
  · -- rotateAccount
    intro cfg now hInv
    by_cases hl : cfg.accounts.length ≤ 1
    · have : Antigravity.rotateAccount cfg now = ⟨cfg, false, none, none, none⟩ := by
        unfold Antigravity.rotateAccount
        rw [if_pos hl]
      rw [this]
      exact hInv
    · cases hn : Antigravity.findNextAvailable cfg now with
      | none =>
        have : (Antigravity.rotateAccount cfg now).cfg = cfg := by
          unfold Antigravity.rotateAccount
          rw [if_neg hl, hn]
        rw [this]
        exact hInv
      | some p =>
        rcases p with ⟨acc, idx⟩
        have hrot : Antigravity.rotateAccount cfg now
            = ⟨⟨cfg.accounts, idx⟩, true,
                some ⟨acc.refresh, acc.access, acc.expires, acc.projectId⟩,
                some ⟨cfg.accounts, idx⟩, none⟩ := by
          unfold Antigravity.rotateAccount
          rw [if_neg hl, hn]
        have hcfg : (Antigravity.rotateAccount cfg now).cfg
            = ⟨cfg.accounts, idx⟩ := by
          rw [hrot]
        rw [hcfg, Inv_mk]
        have hcp := hn
        unfold Antigravity.findNextAvailable at hcp
        rcases ffa_range'_some cfg.accounts cfg.currentIndex now
          cfg.accounts.length (cfg.accounts.length - 1) 1 acc idx hcp with
          ⟨k, _, _, _, hget, _, _⟩
        rcases jsGet_some_bounds hget with ⟨hidx0, hidxlt⟩
        right
        exact ⟨List.length_pos.mp (by omega), hidx0, hidxlt⟩
  · -- resetCmd
    intro cfg hInv
    refine @Inv_of_len_eq cfg (Antigravity.resetCmd cfg).1 ?_ rfl hInv
    simp [Antigravity.resetCmd]
  · -- identifyRun
    intro cfg oracle hInv
    refine @Inv_of_len_eq cfg (Antigravity.identifyRun cfg oracle) ?_ rfl hInv
    simp [Antigravity.identifyRun]
  · -- autoImportFromAuth
    intro cfg cred? now hInv
    by_cases h : cfg.accounts.length > 0
    · have : Antigravity.autoImportFromAuth cfg cred? now = cfg := by
        unfold Antigravity.autoImportFromAuth
        rw [if_pos h]
      rw [this]
      exact hInv
    · cases cred? with
      | none =>
        have : Antigravity.autoImportFromAuth cfg none now = cfg := by
          simp only [Antigravity.autoImportFromAuth]
          rw [if_neg h]
        rw [this]
        exact hInv
      | some cred =>
        by_cases hg : cred.typ ≠ "oauth" ∨ cred.refresh = ""
        · have : Antigravity.autoImportFromAuth cfg (some cred) now = cfg := by
            simp only [Antigravity.autoImportFromAuth]
            rw [if_neg h, if_pos hg]
          rw [this]
          exact hInv
        · have : Antigravity.autoImportFromAuth cfg (some cred) now
              = ⟨[⟨"Account 1 (auto-imported)", none, none, cred.refresh,
                    cred.access, cred.expires,
                    jsOrStr (cred.projectId.getD "")
                      Antigravity.DEFAULT_PROJECT_ID, now, none⟩], 0⟩ := by
            simp only [Antigravity.autoImportFromAuth]
            rw [if_neg h, if_neg hg]
          rw [this, Inv_mk]
          right
          refine ⟨by simp, by omega, by simp⟩
  · -- syncFromAuth
    intro cfg cred? hInv
    cases cred? with
    | none => exact hInv
    | some cred =>
      by_cases htyp : cred.typ = "oauth"
      · by_cases hin : 0 ≤ Antigravity.syncIdx cfg cred
            ∧ Antigravity.syncIdx cfg cred < (cfg.accounts.length : Int)
        · have hcfg : (Antigravity.syncFromAuth cfg (some cred)).cfg
              = ⟨Antigravity.updateLiveAt cred cfg.accounts
                  (Antigravity.syncIdx cfg cred).toNat,
                  Antigravity.syncIdx cfg cred⟩ := by
            rw [ag_sync_some_eq htyp hin]
          rw [hcfg, Inv_mk]
          right
          have hlen : (Antigravity.updateLiveAt cred cfg.accounts
              (Antigravity.syncIdx cfg cred).toNat).length
              = cfg.accounts.length := setIdx_length _ _ _
          refine ⟨List.length_pos.mp (by omega), hin.1, ?_⟩
          rw [hlen]
          exact hin.2
        · rw [ag_sync_noop htyp hin]
          exact hInv
      · have : Antigravity.syncFromAuth cfg (some cred) = ⟨cfg, false⟩ := by
          simp only [Antigravity.syncFromAuth]
          rw [if_pos htyp]
        rw [this]
        exact hInv

/-- C3, witness instance: the invariant holds after removing index `0` from
a valid 2-account pool. -/
theorem C3_invariant_witness :
    Inv (Antigravity.removeCmd ⟨[fxAvail, fxZero], 1⟩ (some 0)).cfg :=
  C3_invariant_ops.2.2.1 ⟨[fxAvail, fxZero], 1⟩ (some 0) (by decide)

theorem c_findAccountIndex_refresh_only
    (accounts : List ClaudeRotator.Account) (r : String) :
    ClaudeRotator.findAccountIndex accounts ⟨none, none, some r⟩
      = (if r = "" then none
         else firstIdx (fun a => some a.refresh == some r) accounts) := by
  unfold ClaudeRotator.findAccountIndex
  by_cases hr : r = "" <;> simp [jsTruthyStr, hr]

theorem c_syncIdx_found {cfg : ClaudeRotator.AccountsConfig}
    {cred : ClaudeRotator.HostCred} {i : Nat}
    (hfi : ClaudeRotator.findAccountIndex cfg.accounts
      ⟨none, none, some cred.refresh⟩ = some i) :
    ClaudeRotator.syncIdx cfg cred = (i : Int) := by
  unfold ClaudeRotator.syncIdx
  rw [hfi]
  simp only []
  rw [if_neg]
  intro hc
  omega

theorem c_syncIdx_fallback {cfg : ClaudeRotator.AccountsConfig}
    {cred : ClaudeRotator.HostCred}
    (hfi : ClaudeRotator.findAccountIndex cfg.accounts
      ⟨none, none, some cred.refresh⟩ = none)
    (hlt : cfg.currentIndex < (cfg.accounts.length : Int)) :
    ClaudeRotator.syncIdx cfg cred = cfg.currentIndex := by
  unfold ClaudeRotator.syncIdx
  rw [hfi]
  simp only []
  rw [if_pos]
  constructor
  · omega
  · exact hlt

theorem c_syncIdx_miss {cfg : ClaudeRotator.AccountsConfig}
    {cred : ClaudeRotator.HostCred}
    (hfi : ClaudeRotator.findAccountIndex cfg.accounts
      ⟨none, none, some cred.refresh⟩ = none)
    (hge : (cfg.accounts.length : Int) ≤ cfg.currentIndex) :
    ClaudeRotator.syncIdx cfg cred = -1 := by
  unfold ClaudeRotator.syncIdx
  rw [hfi]
  simp only []
  rw [if_neg]
  intro hc
  omega

theorem c_sync_some_eq {cfg : ClaudeRotator.AccountsConfig}
    {cred : ClaudeRotator.HostCred}
    (htyp : cred.typ = "oauth")
    (hin : 0 ≤ ClaudeRotator.syncIdx cfg cred
      ∧ ClaudeRotator.syncIdx cfg cred < (cfg.accounts.length : Int)) :
    ClaudeRotator.syncFromAuth cfg (some cred)
      = ⟨⟨ClaudeRotator.updateLiveAt cred cfg.accounts
            (ClaudeRotator.syncIdx cfg cred).toNat,
          ClaudeRotator.syncIdx cfg cred⟩, true⟩ := by
  simp only [ClaudeRotator.syncFromAuth]
  rw [if_neg (by simp [htyp]), if_pos hin]

theorem c_sync_noop {cfg : ClaudeRotator.AccountsConfig}
    {cred : ClaudeRotator.HostCred}
    (htyp : cred.typ = "oauth")
    (hout : ¬(0 ≤ ClaudeRotator.syncIdx cfg cred
      ∧ ClaudeRotator.syncIdx cfg cred < (cfg.accounts.length : Int))) :
    ClaudeRotator.syncFromAuth cfg (some cred) = ⟨cfg, false⟩ := by
  simp only [ClaudeRotator.syncFromAuth]
  rw [if_neg (by simp [htyp]), if_neg hout]

/-- C6, counterexample: the claim asserts a fallback to `currentIndex` when
no stored refresh token matches the host credential's, but the first Claude
rotator's `syncFromAuth` (src/unnamed/part_001) has no such fallback: with
one account, `currentIndex = 0` within bounds, and a host OAuth credential
carrying an unknown refresh token, it changes nothing and persists nothing,
although the entry's access token differs from the host's. -/
theorem C6_counterexample :
    ClaudeRotatorV1.syncFromAuth ⟨[fxV1Acct], 0⟩ (some fxV1CredMiss)
      = ⟨⟨[fxV1Acct], 0⟩, false⟩
    ∧ fxV1Acct.refresh ≠ fxV1CredMiss.refresh
    ∧ (⟨[fxV1Acct], 0⟩ : ClaudeRotatorV1.AccountsConfig).currentIndex
        < ((⟨[fxV1Acct], 0⟩
            : ClaudeRotatorV1.AccountsConfig).accounts.length : Int)
    ∧ fxV1Acct.access ≠ fxV1CredMiss.access := by
  decide

/-- C6 (amended): every variant's `syncFromAuth` locates the pool entry
whose stored refresh token equals the host OAuth credential's; the
Antigravity variant and the second Claude rotator additionally fall back to
`currentIndex` when no entry matches and `currentIndex` is within bounds,
while the first Claude rotator has no fallback and changes nothing on a
miss.  On a located entry each variant overwrites the live credential
fields (access token and expiry, plus the project id where the Antigravity
variant carries a truthy one, and the refresh token in the second Claude
variant) while leaving the identity fields (label, email, external account
id) unchanged, sets `currentIndex` to that entry's index, and persists; an
absent or non-OAuth host credential changes nothing. -/
theorem C6_sync :
    ((∀ cfg : Antigravity.AccountsConfig,
        Antigravity.syncFromAuth cfg none = ⟨cfg, false⟩)
    ∧ (∀ (cfg : Antigravity.AccountsConfig) (cred : Antigravity.HostCred),
        cred.typ ≠ "oauth" →
        Antigravity.syncFromAuth cfg (some cred) = ⟨cfg, false⟩)
    ∧ (∀ (cfg : Antigravity.AccountsConfig) (cred : Antigravity.HostCred)
        (i : Nat), cred.typ = "oauth" → cred.refresh ≠ "" →
        firstIdx (fun a => some a.refresh == some cred.refresh) cfg.accounts
          = some i →
        Antigravity.syncFromAuth cfg (some cred)
          = ⟨⟨Antigravity.updateLiveAt cred cfg.accounts i, (i : Int)⟩, true⟩)
    ∧ (∀ (cfg : Antigravity.AccountsConfig) (cred : Antigravity.HostCred),
        cred.typ = "oauth" →
        (cred.refresh = "" ∨
          firstIdx (fun a => some a.refresh == some cred.refresh) cfg.accounts
            = none) →
        0 ≤ cfg.currentIndex →
        cfg.currentIndex < (cfg.accounts.length : Int) →
        Antigravity.syncFromAuth cfg (some cred)
          = ⟨⟨Antigravity.updateLiveAt cred cfg.accounts
                cfg.currentIndex.toNat, cfg.currentIndex⟩, true⟩)
    ∧ (∀ (cfg : Antigravity.AccountsConfig) (cred : Antigravity.HostCred),
        cred.typ = "oauth" →
        (cred.refresh = "" ∨
          firstIdx (fun a => some a.refresh == some cred.refresh) cfg.accounts
            = none) →
        ¬(0 ≤ cfg.currentIndex
            ∧ cfg.currentIndex < (cfg.accounts.length : Int)) →
        Antigravity.syncFromAuth cfg (some cred) = ⟨cfg, false⟩)
    ∧ (∀ (cred : Antigravity.HostCred)
        (accounts : List Antigravity.Account) (i : Nat)
        (a : Antigravity.Account), accounts[i]? = some a →
        (Antigravity.updateLiveAt cred accounts i).length = accounts.length
        ∧ (Antigravity.updateLiveAt cred accounts i)[i]?
            = some (Antigravity.liveUpdate cred a)
        ∧ (∀ j : Nat, j ≠ i →
            (Antigravity.updateLiveAt cred accounts i)[j]? = accounts[j]?)
        ∧ (Antigravity.liveUpdate cred a).label = a.label
        ∧ (Antigravity.liveUpdate cred a).email = a.email
        ∧ (Antigravity.liveUpdate cred a).googleId = a.googleId
        ∧ (Antigravity.liveUpdate cred a).refresh = a.refresh
        ∧ (Antigravity.liveUpdate cred a).access = cred.access
        ∧ (Antigravity.liveUpdate cred a).expires = cred.expires
        ∧ (Antigravity.liveUpdate cred a).projectId
            = (if jsTruthyStr cred.projectId then cred.projectId.getD a.projectId
               else a.projectId)))
    ∧ ((∀ cfg : ClaudeRotator.AccountsConfig,
        ClaudeRotator.syncFromAuth cfg none = ⟨cfg, false⟩)
    ∧ (∀ (cfg : ClaudeRotator.AccountsConfig) (cred : ClaudeRotator.HostCred),
        cred.typ ≠ "oauth" →
        ClaudeRotator.syncFromAuth cfg (some cred) = ⟨cfg, false⟩)
    ∧ (∀ (cfg : ClaudeRotator.AccountsConfig) (cred : ClaudeRotator.HostCred)
        (i : Nat), cred.typ = "oauth" → cred.refresh ≠ "" →
        firstIdx (fun a => some a.refresh == some cred.refresh) cfg.accounts
          = some i →
        ClaudeRotator.syncFromAuth cfg (some cred)
          = ⟨⟨ClaudeRotator.updateLiveAt cred cfg.accounts i, (i : Int)⟩, true⟩)
    ∧ (∀ (cfg : ClaudeRotator.AccountsConfig) (cred : ClaudeRotator.HostCred),
        cred.typ = "oauth" →
        (cred.refresh = "" ∨
          firstIdx (fun a => some a.refresh == some cred.refresh) cfg.accounts
            = none) →
        0 ≤ cfg.currentIndex →
        cfg.currentIndex < (cfg.accounts.length : Int) →
        ClaudeRotator.syncFromAuth cfg (some cred)
          = ⟨⟨ClaudeRotator.updateLiveAt cred cfg.accounts
                cfg.currentIndex.toNat, cfg.currentIndex⟩, true⟩)
    ∧ (∀ (cfg : ClaudeRotator.AccountsConfig) (cred : ClaudeRotator.HostCred),
        cred.typ = "oauth" →
        (cred.refresh = "" ∨
          firstIdx (fun a => some a.refresh == some cred.refresh) cfg.accounts
            = none) →
        ¬(0 ≤ cfg.currentIndex
            ∧ cfg.currentIndex < (cfg.accounts.length : Int)) →
        ClaudeRotator.syncFromAuth cfg (some cred) = ⟨cfg, false⟩)
    ∧ (∀ (cred : ClaudeRotator.HostCred)
        (accounts : List ClaudeRotator.Account) (i : Nat)
        (a : ClaudeRotator.Account), accounts[i]? = some a →
        (ClaudeRotator.updateLiveAt cred accounts i).length = accounts.length
        ∧ (ClaudeRotator.updateLiveAt cred accounts i)[i]?
            = some (ClaudeRotator.liveUpdate cred a)
        ∧ (∀ j : Nat, j ≠ i →
            (ClaudeRotator.updateLiveAt cred accounts i)[j]? = accounts[j]?)
        ∧ (ClaudeRotator.liveUpdate cred a).label = a.label
        ∧ (ClaudeRotator.liveUpdate cred a).email = a.email
        ∧ (ClaudeRotator.liveUpdate cred a).accountUuid = a.accountUuid
        ∧ (ClaudeRotator.liveUpdate cred a).refresh = cred.refresh
        ∧ (ClaudeRotator.liveUpdate cred a).access = cred.access
        ∧ (ClaudeRotator.liveUpdate cred a).expires = cred.expires))
    ∧ ((∀ cfg : ClaudeRotatorV1.AccountsConfig,
        ClaudeRotatorV1.syncFromAuth cfg none = ⟨cfg, false⟩)
    ∧ (∀ (cfg : ClaudeRotatorV1.AccountsConfig)
        (cred : ClaudeRotatorV1.HostCred),
        cred.typ ≠ "oauth" →
        ClaudeRotatorV1.syncFromAuth cfg (some cred) = ⟨cfg, false⟩)
    ∧ (∀ (cfg : ClaudeRotatorV1.AccountsConfig)
        (cred : ClaudeRotatorV1.HostCred) (i : Nat), cred.typ = "oauth" →
        firstIdx (fun a => a.refresh == cred.refresh) cfg.accounts = some i →
        ClaudeRotatorV1.syncFromAuth cfg (some cred)
          = ⟨⟨ClaudeRotatorV1.updateLiveAt cred cfg.accounts i, (i : Int)⟩,
              true⟩)
    ∧ (∀ (cfg : ClaudeRotatorV1.AccountsConfig)
        (cred : ClaudeRotatorV1.HostCred), cred.typ = "oauth" →
        firstIdx (fun a => a.refresh == cred.refresh) cfg.accounts = none →
        ClaudeRotatorV1.syncFromAuth cfg (some cred) = ⟨cfg, false⟩)
    ∧ (∀ (cred : ClaudeRotatorV1.HostCred)
        (accounts : List ClaudeRotatorV1.Account) (i : Nat)
        (a : ClaudeRotatorV1.Account), accounts[i]? = some a →
        (ClaudeRotatorV1.updateLiveAt cred accounts i).length = accounts.length
        ∧ (ClaudeRotatorV1.updateLiveAt cred accounts i)[i]?
            = some (ClaudeRotatorV1.liveUpdate cred a)
        ∧ (∀ j : Nat, j ≠ i →
            (ClaudeRotatorV1.updateLiveAt cred accounts i)[j]? = accounts[j]?)
        ∧ (ClaudeRotatorV1.liveUpdate cred a).label = a.label
        ∧ (ClaudeRotatorV1.liveUpdate cred a).refresh = a.refresh
        ∧ (ClaudeRotatorV1.liveUpdate cred a).addedAt = a.addedAt
        ∧ (ClaudeRotatorV1.liveUpdate cred a).exhaustedAt = a.exhaustedAt
        ∧ (ClaudeRotatorV1.liveUpdate cred a).access = cred.access
        ∧ (ClaudeRotatorV1.liveUpdate cred a).expires = cred.expires)) := by
  refine ⟨?_, ?_, ?_⟩
  · refine ⟨fun cfg => rfl, ?_, ?_, ?_, ?_, ?_⟩
    · intro cfg cred htyp
      simp only [Antigravity.syncFromAuth]
      rw [if_pos htyp]
    · intro cfg cred i htyp hr hfi
      have hfa : Antigravity.findAccountIndex cfg.accounts
          ⟨none, none, some cred.refresh⟩ = some i := by
        rw [findAccountIndex_refresh_only, if_neg hr]
        exact hfi
      have hlt : i < cfg.accounts.length := (firstIdx_some_spec hfi).1
      have hidx := ag_syncIdx_found hfa
      rw [ag_sync_some_eq htyp (by rw [hidx]; constructor <;> omega)]
      rw [hidx]
      simp [Int.toNat_natCast]
    · intro cfg cred htyp hnone hci hlt
      have hfa : Antigravity.findAccountIndex cfg.accounts
          ⟨none, none, some cred.refresh⟩ = none := by
        rw [findAccountIndex_refresh_only]
        rcases hnone with hr | hfi
        · rw [if_pos hr]
        · by_cases hr : cred.refresh = ""
          · rw [if_pos hr]
          · rw [if_neg hr]; exact hfi
      have hidx := ag_syncIdx_fallback hfa hlt
      rw [ag_sync_some_eq htyp (by rw [hidx]; exact ⟨hci, hlt⟩)]
      rw [hidx]
    · intro cfg cred htyp hnone hout
      have hfa : Antigravity.findAccountIndex cfg.accounts
          ⟨none, none, some cred.refresh⟩ = none := by
        rw [findAccountIndex_refresh_only]
        rcases hnone with hr | hfi
        · rw [if_pos hr]
        · by_cases hr : cred.refresh = ""
          · rw [if_pos hr]
          · rw [if_neg hr]; exact hfi
      refine ag_sync_noop htyp ?_
      by_cases hfb : cfg.currentIndex < (cfg.accounts.length : Int)
      · rw [ag_syncIdx_fallback hfa hfb]
        intro hc
        exact hout ⟨hc.1, hfb⟩
      · rw [ag_syncIdx_miss hfa (by omega)]
        intro hc
        omega
    · intro cred accounts i a hget
      have hset := setIdx_getElem? (Antigravity.liveUpdate cred) accounts
      refine ⟨setIdx_length _ _ _, ?_, ?_, rfl, rfl, rfl, rfl, rfl, rfl, rfl⟩
      · rw [show (Antigravity.updateLiveAt cred accounts i)
            = setIdx (Antigravity.liveUpdate cred) accounts i from rfl,
          hset i i, if_pos rfl, hget]
        rfl
      · intro j hj
        rw [show (Antigravity.updateLiveAt cred accounts i)
            = setIdx (Antigravity.liveUpdate cred) accounts i from rfl,
          hset i j, if_neg (fun hc => hj hc.symm)]
  · refine ⟨fun cfg => rfl, ?_, ?_, ?_, ?_, ?_⟩
    · intro cfg cred htyp
      simp only [ClaudeRotator.syncFromAuth]
      rw [if_pos htyp]
    · intro cfg cred i htyp hr hfi
      have hfa : ClaudeRotator.findAccountIndex cfg.accounts
          ⟨none, none, some cred.refresh⟩ = some i := by
        rw [c_findAccountIndex_refresh_only, if_neg hr]
        exact hfi
      have hlt : i < cfg.accounts.length := (firstIdx_some_spec hfi).1
      have hidx := c_syncIdx_found hfa
      rw [c_sync_some_eq htyp (by rw [hidx]; constructor <;> omega)]
      rw [hidx]
      simp [Int.toNat_natCast]
    · intro cfg cred htyp hnone hci hlt
      have hfa : ClaudeRotator.findAccountIndex cfg.accounts
          ⟨none, none, some cred.refresh⟩ = none := by
        rw [c_findAccountIndex_refresh_only]
        rcases hnone with hr | hfi
        · rw [if_pos hr]
        · by_cases hr : cred.refresh = ""
          · rw [if_pos hr]
          · rw [if_neg hr]; exact hfi
      have hidx := c_syncIdx_fallback hfa hlt
      rw [c_sync_some_eq htyp (by rw [hidx]; exact ⟨hci, hlt⟩)]
      rw [hidx]
    · intro cfg cred htyp hnone hout
      have hfa : ClaudeRotator.findAccountIndex cfg.accounts
          ⟨none, none, some cred.refresh⟩ = none := by
        rw [c_findAccountIndex_refresh_only]
        rcases hnone with hr | hfi
        · rw [if_pos hr]
        · by_cases hr : cred.refresh = ""
          · rw [if_pos hr]
          · rw [if_neg hr]; exact hfi
      refine c_sync_noop htyp ?_
      by_cases hfb : cfg.currentIndex < (cfg.accounts.length : Int)
      · rw [c_syncIdx_fallback hfa hfb]
        intro hc
        exact hout ⟨hc.1, hfb⟩
      · rw [c_syncIdx_miss hfa (by omega)]
        intro hc
        omega
    · intro cred accounts i a hget
      have hset := setIdx_getElem? (ClaudeRotator.liveUpdate cred) accounts
      refine ⟨setIdx_length _ _ _, ?_, ?_, rfl, rfl, rfl, rfl, rfl, rfl⟩
      · rw [show (ClaudeRotator.updateLiveAt cred accounts i)
            = setIdx (ClaudeRotator.liveUpdate cred) accounts i from rfl,
          hset i i, if_pos rfl, hget]
        rfl
      · intro j hj
        rw [show (ClaudeRotator.updateLiveAt cred accounts i)
            = setIdx (ClaudeRotator.liveUpdate cred) accounts i from rfl,
          hset i j, if_neg (fun hc => hj hc.symm)]
  · refine ⟨fun cfg => rfl, ?_, ?_, ?_, ?_⟩
    · intro cfg cred htyp
      simp only [ClaudeRotatorV1.syncFromAuth]
      rw [if_pos htyp]
    · intro cfg cred i htyp hfi
      simp only [ClaudeRotatorV1.syncFromAuth]
      rw [if_neg (by simp [htyp]), hfi]
    · intro cfg cred htyp hfi
      simp only [ClaudeRotatorV1.syncFromAuth]
      rw [if_neg (by simp [htyp]), hfi]
    · intro cred accounts i a hget
      have hset := setIdx_getElem? (ClaudeRotatorV1.liveUpdate cred) accounts
      refine ⟨setIdx_length _ _ _, ?_, ?_, rfl, rfl, rfl, rfl, rfl, rfl⟩
      · rw [show (ClaudeRotatorV1.updateLiveAt cred accounts i)
            = setIdx (ClaudeRotatorV1.liveUpdate cred) accounts i from rfl,
          hset i i, if_pos rfl, hget]
        rfl
      · intro j hj
        rw [show (ClaudeRotatorV1.updateLiveAt cred accounts i)
            = setIdx (ClaudeRotatorV1.liveUpdate cred) accounts i from rfl,
          hset i j, if_neg (fun hc => hj hc.symm)]

/-- C6, witness instances: a refresh-token match in each of the three
variants. -/
theorem C6_sync_witness :
    Antigravity.syncFromAuth ⟨[fxAvail], 5⟩ (some fxCred)
      = ⟨⟨Antigravity.updateLiveAt fxCred [fxAvail] 0, 0⟩, true⟩
    ∧ ClaudeRotator.syncFromAuth ⟨[fxCAcct], 5⟩ (some fxCCred)
      = ⟨⟨ClaudeRotator.updateLiveAt fxCCred [fxCAcct] 0, 0⟩, true⟩
    ∧ ClaudeRotatorV1.syncFromAuth ⟨[fxV1Acct], 0⟩ (some fxV1Cred)
      = ⟨⟨ClaudeRotatorV1.updateLiveAt fxV1Cred [fxV1Acct] 0, 0⟩, true⟩ := by
  refine ⟨?_, ?_, ?_⟩
  · exact C6_sync.1.2.2.1 ⟨[fxAvail], 5⟩ fxCred 0 (by decide) (by decide)
      (by decide)
  · exact C6_sync.2.1.2.2.1 ⟨[fxCAcct], 5⟩ fxCCred 0 (by decide) (by decide)
      (by decide)
  · exact C6_sync.2.2.2.2.1 ⟨[fxV1Acct], 0⟩ fxV1Cred 0 (by decide)
      (by decide)

theorem concat_getElem?_cases {l : List α} {x a : α} {j : Nat}
    (h : (l ++ [x])[j]? = some a) :
    (j < l.length ∧ l[j]? = some a) ∨ (j = l.length ∧ a = x) := by
  by_cases hj : j < l.length
  · left
    exact ⟨hj, by rw [← List.getElem?_append_left hj]; exact h⟩
  · right
    rw [List.getElem?_append_right (by omega)] at h
    rcases List.getElem?_eq_some_iff.mp h with ⟨hlt, he⟩
    simp only [List.length_cons, List.length_nil] at hlt
    have hje : j = l.length := by omega
    subst hje
    refine ⟨rfl, ?_⟩
    rw [← he]
    simp

theorem findAccountIndex_lt {l : List Antigravity.Account}
    {m : Antigravity.MatchKeys} {i : Nat}
    (h : Antigravity.findAccountIndex l m = some i) : i < l.length := by
  unfold Antigravity.findAccountIndex at h
  cases h1 : (if jsTruthyStr m.googleId
      then firstIdx (fun a => a.googleId == m.googleId) l else none) with
  | some i1 =>
    rw [h1] at h
    simp only [Option.some_orElse] at h
    cases h
    by_cases hg : jsTruthyStr m.googleId
    · rw [if_pos hg] at h1
      exact (firstIdx_some_spec h1).1
    · rw [if_neg hg] at h1
      cases h1
  | none =>
    rw [h1] at h
    simp only [Option.none_orElse] at h
    cases h2 : (if jsTruthyStr m.email
        then firstIdx (fun a => a.email == m.email) l else none) with
    | some i2 =>
      rw [h2] at h
      simp only [Option.some_orElse] at h
      cases h
      by_cases he : jsTruthyStr m.email
      · rw [if_pos he] at h2
        exact (firstIdx_some_spec h2).1
      · rw [if_neg he] at h2
        cases h2
    | none =>
      rw [h2] at h
      simp only [Option.none_orElse] at h
      by_cases hr : jsTruthyStr m.refresh
      · rw [if_pos hr] at h
        exact (firstIdx_some_spec h).1
      · rw [if_neg hr] at h
        cases h

theorem jsTruthyStr_iff {o : Option String} :
    jsTruthyStr o = true ↔ ∃ s, o = some s ∧ s ≠ "" := by
  cases o with
  | none => simp [jsTruthyStr]
  | some s => simp [jsTruthyStr]

theorem ExtIdUnique_transfer {l new : List Antigravity.Account}
    (hsame : ∀ (r : Nat) (x : Antigravity.Account), new[r]? = some x →
      ∃ y, l[r]? = some y ∧ x.googleId = y.googleId)
    (hu : ExtIdUnique l) : ExtIdUnique new := by
  intro p q a b hpq hp hq htr
  obtain ⟨a', hpa, hga⟩ := hsame p a hp
  obtain ⟨b', hqb, hgb⟩ := hsame q b hq
  rw [hga, hgb]
  refine hu p q a' b' hpq hpa hqb ?_
  rw [← hga]
  exact htr

theorem mergeInto_googleId (t : Antigravity.TokenBundle) (cl : String)
    (y : Antigravity.Account) :
    (Antigravity.mergeInto t cl y).googleId = (t.googleId <|> y.googleId) := rfl

theorem c_addOrMerge_merge_acc {cfg : ClaudeRotator.AccountsConfig}
    {t : ClaudeRotator.TokenBundle} {cl : String} {now : Int} {i : Nat}
    (hfi : ClaudeRotator.findAccountIndex cfg.accounts
      ⟨t.accountUuid, t.email, none⟩ = some i) :
    (ClaudeRotator.addOrMerge cfg t cl now).accounts
      = ClaudeRotator.mergeAt t cl cfg.accounts i := by
  unfold ClaudeRotator.addOrMerge
  rw [hfi]

theorem c_addOrMerge_append_acc {cfg : ClaudeRotator.AccountsConfig}
    {t : ClaudeRotator.TokenBundle} {cl : String} {now : Int}
    (hfi : ClaudeRotator.findAccountIndex cfg.accounts
      ⟨t.accountUuid, t.email, none⟩ = none) :
    (ClaudeRotator.addOrMerge cfg t cl now).accounts
      = cfg.accounts ++
        [⟨jsOrStr cl (jsOrStr (t.email.getD "")
            ("Account " ++ toString (cfg.accounts.length + 1))),
          t.email, t.accountUuid, t.refresh, t.access, t.expires, now,
          none⟩] := by
  unfold ClaudeRotator.addOrMerge
  rw [hfi]

theorem c_addOrMerge_ci (cfg : ClaudeRotator.AccountsConfig)
    (t : ClaudeRotator.TokenBundle) (cl : String) (now : Int) :
    (ClaudeRotator.addOrMerge cfg t cl now).currentIndex
      = cfg.currentIndex := by
  unfold ClaudeRotator.addOrMerge
  cases ClaudeRotator.findAccountIndex cfg.accounts
    ⟨t.accountUuid, t.email, none⟩ <;> rfl

/-- C7, counterexamples.  Antigravity: adding a bundle whose external id
matches entry `B` while its email equals entry `A`'s leaves the pool length
unchanged but produces two entries that share the same non-empty email —
refuting the claimed guarantee that no operation ever yields two entries
with the same non-empty stable identity.  Second Claude rotator: a bundle
sharing an entry's refresh token but carrying a fresh account uuid and
email is appended — the pool grows to two entries with the same refresh
token, refuting the refresh-token leg of the claimed dedup precedence. -/
theorem C7_counterexample :
    ((Antigravity.addOrMerge ⟨[fxE1, fxG2], 0⟩ fxBundle "" 5).accounts.length
        = 2
    ∧ ((Antigravity.addOrMerge ⟨[fxE1, fxG2], 0⟩ fxBundle "" 5).accounts.map
        (fun a => a.email)) = [some "e1", some "e1"])
    ∧ ((ClaudeRotator.addOrMerge ⟨[fxCAcct2], 0⟩ fxCBundle
          "" 7).accounts.length = 2
    ∧ ((ClaudeRotator.addOrMerge ⟨[fxCAcct2], 0⟩ fxCBundle
          "" 7).accounts.map (fun a => a.refresh)) = ["cr", "cr"]
    ∧ fxCAcct2.refresh = fxCBundle.refresh) := by
  decide

/-- C7 (amended): in the Antigravity rotator, whose `add` dedups by
external id, then email, then refresh token, merging a bundle with a
matching stable identity leaves the pool length and `currentIndex`
unchanged, overwrites exactly the matched entry's credential fields with
the bundle's values, and preserves the label unless an explicit one was
supplied; that `add` preserves uniqueness of non-empty *external account
ids*, but entries sharing the same non-empty email can arise (see the
counterexample).  The second Claude rotator's `add` dedups only by account
uuid and email — never by refresh token: on a uuid/email match it merges
in place the same way (assigning the bundle's email and uuid directly),
while a bundle matching an entry only by refresh token is appended as a new
entry, growing the pool by one and duplicating the stored refresh token. -/
theorem C7_addOrMerge :
    (∀ (cfg : Antigravity.AccountsConfig) (t : Antigravity.TokenBundle)
      (cl : String) (now : Int) (i : Nat),
      Antigravity.findAccountIndex cfg.accounts
        ⟨t.googleId, t.email, some t.refresh⟩ = some i →
      (Antigravity.addOrMerge cfg t cl now).accounts.length
          = cfg.accounts.length
      ∧ (Antigravity.addOrMerge cfg t cl now).currentIndex = cfg.currentIndex
      ∧ (∀ j : Nat, j ≠ i →
          (Antigravity.addOrMerge cfg t cl now).accounts[j]?
            = cfg.accounts[j]?)
      ∧ (∀ a : Antigravity.Account, cfg.accounts[i]? = some a →
          (Antigravity.addOrMerge cfg t cl now).accounts[i]?
            = some (Antigravity.mergeInto t cl a)))
    ∧ (∀ (t : Antigravity.TokenBundle) (cl : String)
        (a : Antigravity.Account),
        (Antigravity.mergeInto t cl a).refresh = t.refresh
        ∧ (Antigravity.mergeInto t cl a).access = t.access
        ∧ (Antigravity.mergeInto t cl a).expires = t.expires
        ∧ (Antigravity.mergeInto t cl a).projectId = t.projectId
        ∧ (Antigravity.mergeInto t cl a).label = jsOrStr cl a.label
        ∧ (Antigravity.mergeInto t cl a).addedAt = a.addedAt
        ∧ (Antigravity.mergeInto t cl a).exhaustedAt = a.exhaustedAt)
    ∧ (∀ (cfg : Antigravity.AccountsConfig) (t : Antigravity.TokenBundle)
        (cl : String) (now : Int),
        ExtIdUnique cfg.accounts →
        ExtIdUnique (Antigravity.addOrMerge cfg t cl now).accounts)
    ∧ (∀ (cfg : ClaudeRotator.AccountsConfig) (t : ClaudeRotator.TokenBundle)
        (cl : String) (now : Int) (i : Nat),
        ClaudeRotator.findAccountIndex cfg.accounts
          ⟨t.accountUuid, t.email, none⟩ = some i →
        (ClaudeRotator.addOrMerge cfg t cl now).accounts.length
            = cfg.accounts.length
        ∧ (ClaudeRotator.addOrMerge cfg t cl now).currentIndex
            = cfg.currentIndex
        ∧ (∀ j : Nat, j ≠ i →
            (ClaudeRotator.addOrMerge cfg t cl now).accounts[j]?
              = cfg.accounts[j]?)
        ∧ (∀ a : ClaudeRotator.Account, cfg.accounts[i]? = some a →
            (ClaudeRotator.addOrMerge cfg t cl now).accounts[i]?
              = some (ClaudeRotator.mergeInto t cl a)))
    ∧ (∀ (t : ClaudeRotator.TokenBundle) (cl : String)
        (a : ClaudeRotator.Account),
        (ClaudeRotator.mergeInto t cl a).refresh = t.refresh
        ∧ (ClaudeRotator.mergeInto t cl a).access = t.access
        ∧ (ClaudeRotator.mergeInto t cl a).expires = t.expires
        ∧ (ClaudeRotator.mergeInto t cl a).email = t.email
        ∧ (ClaudeRotator.mergeInto t cl a).accountUuid = t.accountUuid
        ∧ (ClaudeRotator.mergeInto t cl a).label = jsOrStr cl a.label
        ∧ (ClaudeRotator.mergeInto t cl a).addedAt = a.addedAt
        ∧ (ClaudeRotator.mergeInto t cl a).exhaustedAt = a.exhaustedAt)
    ∧ (∀ (cfg : ClaudeRotator.AccountsConfig) (t : ClaudeRotator.TokenBundle)
        (cl : String) (now : Int),
        ClaudeRotator.findAccountIndex cfg.accounts
          ⟨t.accountUuid, t.email, none⟩ = none →
        (ClaudeRotator.addOrMerge cfg t cl now).accounts
            = cfg.accounts ++
              [⟨jsOrStr cl (jsOrStr (t.email.getD "")
                  ("Account " ++ toString (cfg.accounts.length + 1))),
                t.email, t.accountUuid, t.refresh, t.access, t.expires, now,
                none⟩]
        ∧ (ClaudeRotator.addOrMerge cfg t cl now).accounts.length
            = cfg.accounts.length + 1) := by
  refine ⟨?_, ?_, ?_, ?_, ?_, ?_⟩
  · intro cfg t cl now i hfi
    have hsx : Antigravity.mergeAt t cl cfg.accounts i
        = setIdx (Antigravity.mergeInto t cl) cfg.accounts i := rfl
    have hacc := @addOrMerge_merge_acc cfg t cl now i hfi
    refine ⟨?_, addOrMerge_ci cfg t cl now, ?_, ?_⟩
    · rw [hacc, hsx]
      exact setIdx_length _ _ _
    · intro j hj
      rw [hacc, hsx, setIdx_getElem?, if_neg (fun hc => hj hc.symm)]
    · intro a ha
      rw [hacc, hsx, setIdx_getElem?, if_pos rfl, ha]
      rfl
  · intro t cl a
    exact ⟨rfl, rfl, rfl, rfl, rfl, rfl, rfl⟩
  · intro cfg t cl now hu
    cases hfi : Antigravity.findAccountIndex cfg.accounts
        ⟨t.googleId, t.email, some t.refresh⟩ with
    | some i =>
      have hsx : Antigravity.mergeAt t cl cfg.accounts i
          = setIdx (Antigravity.mergeInto t cl) cfg.accounts i := rfl
      have hacc := @addOrMerge_merge_acc cfg t cl now i hfi
      have hchar : ∀ j : Nat,
          (Antigravity.addOrMerge cfg t cl now).accounts[j]?
            = if i = j
              then (cfg.accounts[j]?).map (Antigravity.mergeInto t cl)
              else cfg.accounts[j]? := by
        intro j
        rw [hacc, hsx, setIdx_getElem?]
      have hfi2 := hfi
      unfold Antigravity.findAccountIndex at hfi2
      by_cases ht : jsTruthyStr t.googleId
      · rw [if_pos ht] at hfi2
        obtain ⟨g, hg, hgne⟩ := jsTruthyStr_iff.mp ht
        cases hfirst : firstIdx
            (fun a => a.googleId == (⟨t.googleId, t.email, some t.refresh⟩
              : Antigravity.MatchKeys).googleId) cfg.accounts with
        | some i0 =>
          rw [hfirst] at hfi2
          simp only [Option.some_orElse] at hfi2
          cases hfi2
          rcases (firstIdx_some_spec hfirst).2.1 with ⟨old, hold, holdp⟩
          have holdg : old.googleId = t.googleId := by
            have := beq_iff_eq.mp holdp
            exact this
          refine ExtIdUnique_transfer ?_ hu
          intro r x hx
          rw [hchar r] at hx
          by_cases hri : i = r
          · subst hri
            rw [if_pos rfl] at hx
            rcases Option.map_eq_some.mp hx with ⟨y, hy, rfl⟩
            refine ⟨y, hy, ?_⟩
            have hyold : y = old := by
              rw [hold] at hy
              cases hy
              rfl
            subst hyold
            rw [mergeInto_googleId, holdg, hg]
            rfl
          · rw [if_neg hri] at hx
            exact ⟨x, hx, rfl⟩
        | none =>
          rw [hfirst] at hfi2
          simp only [Option.none_orElse] at hfi2
          have hnog : ∀ (j : Nat) (y : Antigravity.Account),
              cfg.accounts[j]? = some y → y.googleId ≠ t.googleId := by
            intro j y hy
            have := firstIdx_none_spec hfirst j y hy
            exact beq_eq_false_iff_ne.mp this
          intro p q a b hpq hp hq htr
          rw [hchar p] at hp
          rw [hchar q] at hq
          by_cases hpi : i = p
          · rw [if_pos hpi] at hp
            rcases Option.map_eq_some.mp hp with ⟨y, hy, rfl⟩
            have hqi : ¬ i = q := fun hc => hpq (hpi ▸ hc ▸ rfl)
            rw [if_neg hqi] at hq
            rw [mergeInto_googleId, hg]
            intro heq
            have hbg : b.googleId = t.googleId := by
              rw [hg]
              simp only [Option.some_orElse] at heq
              exact heq.symm
            exact hnog q b hq hbg
          · rw [if_neg hpi] at hp
            by_cases hqi : i = q
            · rw [if_pos hqi] at hq
              rcases Option.map_eq_some.mp hq with ⟨y, hy, rfl⟩
              rw [mergeInto_googleId, hg]
              intro heq
              have : a.googleId = t.googleId := by
                rw [hg]
                simp only [Option.some_orElse] at heq
                exact heq
              exact hnog p a hp this
            · rw [if_neg hqi] at hq
              exact hu p q a b hpq hp hq htr
      · cases hgid : t.googleId with
        | none =>
          refine ExtIdUnique_transfer ?_ hu
          intro r x hx
          rw [hchar r] at hx
          by_cases hri : i = r
          · rw [if_pos hri] at hx
            rcases Option.map_eq_some.mp hx with ⟨y, hy, rfl⟩
            refine ⟨y, hy, ?_⟩
            rw [mergeInto_googleId, hgid]
            rfl
          · rw [if_neg hri] at hx
            exact ⟨x, hx, rfl⟩
        | some s =>
          have hse : s = "" := by
            by_contra hsne
            exact ht (jsTruthyStr_iff.mpr ⟨s, hgid, hsne⟩)
          subst hse
          intro p q a b hpq hp hq htr
          rw [hchar p] at hp
          rw [hchar q] at hq
          by_cases hpi : i = p
          · rw [if_pos hpi] at hp
            rcases Option.map_eq_some.mp hp with ⟨y, hy, rfl⟩
            exfalso
            rw [mergeInto_googleId, hgid] at htr
            simp [jsTruthyStr] at htr
          · rw [if_neg hpi] at hp
            by_cases hqi : i = q
            · rw [if_pos hqi] at hq
              rcases Option.map_eq_some.mp hq with ⟨y, hy, rfl⟩
              rw [mergeInto_googleId, hgid]
              obtain ⟨s', hs', hs'ne⟩ := jsTruthyStr_iff.mp htr
              rw [hs']
              simp only [Option.some_orElse]
              intro hc
              exact hs'ne (by cases hc; rfl)
            · rw [if_neg hqi] at hq
              exact hu p q a b hpq hp hq htr
    | none =>
      have hacc := @addOrMerge_append_acc cfg t cl now hfi
      have hfi2 := hfi
      unfold Antigravity.findAccountIndex at hfi2
      intro p q a b hpq hp hq htr
      rw [hacc] at hp hq
      have hnewg : (⟨jsOrStr cl (jsOrStr (t.email.getD "")
          ("Account " ++ toString (cfg.accounts.length + 1))),
          t.email, t.googleId, t.refresh, t.access, t.expires, t.projectId,
          now, none⟩ : Antigravity.Account).googleId = t.googleId := rfl
      have hnog : jsTruthyStr t.googleId = true →
          ∀ (j : Nat) (y : Antigravity.Account),
          cfg.accounts[j]? = some y → y.googleId ≠ t.googleId := by
        intro ht j y hy
        rw [if_pos ht] at hfi2
        cases hfirst : firstIdx
            (fun a => a.googleId == (⟨t.googleId, t.email, some t.refresh⟩
              : Antigravity.MatchKeys).googleId) cfg.accounts with
        | some i0 =>
          rw [hfirst] at hfi2
          simp only [Option.some_orElse] at hfi2
          cases hfi2
        | none =>
          have := firstIdx_none_spec hfirst j y hy
          exact beq_eq_false_iff_ne.mp this
      rcases concat_getElem?_cases hp with ⟨hplt, hpl⟩ | ⟨hpe, hpa⟩
      · rcases concat_getElem?_cases hq with ⟨hqlt, hql⟩ | ⟨hqe, hqb⟩
        · exact hu p q a b hpq hpl hql htr
        · subst hqb
          rw [hnewg]
          by_cases ht : jsTruthyStr t.googleId
          · exact hnog ht p a hpl
          · obtain ⟨s', hs', hs'ne⟩ := jsTruthyStr_iff.mp htr
            rw [hs']
            cases hgid : t.googleId with
            | none => simp
            | some s =>
              have hse : s = "" := by
                by_contra hsne
                exact ht (jsTruthyStr_iff.mpr ⟨s, hgid, hsne⟩)
              subst hse
              intro hc
              exact hs'ne (by cases hc; rfl)
      · subst hpa
        rw [hnewg] at htr ⊢
        rcases concat_getElem?_cases hq with ⟨hqlt, hql⟩ | ⟨hqe, hqb⟩
        · intro heq
          exact hnog htr q b hql heq.symm
        · exfalso
          exact hpq (hpe.trans hqe.symm)
  · intro cfg t cl now i hfi
    have hsx : ClaudeRotator.mergeAt t cl cfg.accounts i
        = setIdx (ClaudeRotator.mergeInto t cl) cfg.accounts i := rfl
    have hacc := @c_addOrMerge_merge_acc cfg t cl now i hfi
    refine ⟨?_, c_addOrMerge_ci cfg t cl now, ?_, ?_⟩
    · rw [hacc, hsx]
      exact setIdx_length _ _ _
    · intro j hj
      rw [hacc, hsx, setIdx_getElem?, if_neg (fun hc => hj hc.symm)]
    · intro a ha
      rw [hacc, hsx, setIdx_getElem?, if_pos rfl, ha]
      rfl
  · intro t cl a
    exact ⟨rfl, rfl, rfl, rfl, rfl, rfl, rfl, rfl⟩
  · intro cfg t cl now hfi
    have hacc := @c_addOrMerge_append_acc cfg t cl now hfi
    refine ⟨hacc, ?_⟩
    rw [hacc]
    simp

/-- C7, witness instances: merging a same-identity bundle into a 1-account
pool and external-id uniqueness after appending a fresh account
(Antigravity), a uuid-matched in-place merge and a refresh-only-matched
append (second Claude rotator). -/
theorem C7_addOrMerge_witness :
    (Antigravity.addOrMerge ⟨[fxG2], 0⟩ fxBundle "" 5).accounts.length = 1
    ∧ (Antigravity.addOrMerge ⟨[fxG2], 0⟩ fxBundle "" 5).accounts[0]?
        = some (Antigravity.mergeInto fxBundle "" fxG2)
    ∧ ExtIdUnique (Antigravity.addOrMerge ⟨[fxG2], 0⟩ fxBundleNew "" 9).accounts
    ∧ (ClaudeRotator.addOrMerge ⟨[fxCAcct2], 0⟩ fxCBundleDup
        "" 7).accounts[0]?
        = some (ClaudeRotator.mergeInto fxCBundleDup "" fxCAcct2)
    ∧ (ClaudeRotator.addOrMerge ⟨[fxCAcct2], 0⟩ fxCBundle
        "" 7).accounts.length = 2 := by
  have hu1 : ExtIdUnique [fxG2] := by
    intro i j a b hij hi hj htr
    rcases List.getElem?_eq_some_iff.mp hi with ⟨hilt, _⟩
    rcases List.getElem?_eq_some_iff.mp hj with ⟨hjlt, _⟩
    simp only [List.length_cons, List.length_nil] at hilt hjlt
    omega
  have h1 := (C7_addOrMerge.1 ⟨[fxG2], 0⟩ fxBundle "" 5 0 (by decide))
  have h2 := C7_addOrMerge.2.2.2.1 ⟨[fxCAcct2], 0⟩ fxCBundleDup "" 7 0
    (by decide)
  have h3 := C7_addOrMerge.2.2.2.2.2 ⟨[fxCAcct2], 0⟩ fxCBundle "" 7
    (by decide)
  exact ⟨h1.1, h1.2.2.2 fxG2 rfl,
    C7_addOrMerge.2.2.1 ⟨[fxG2], 0⟩ fxBundleNew "" 9 hu1,
    h2.2.2.2 fxCAcct2 rfl, h3.2⟩

/-- C10: whenever `currentIndex` is at or past the pool length, every read
of the current account is guarded: the status line renders the current
account's name as `"?"`, the `turn_end` handler marks nothing as exhausted
(leaving the pool untouched before rotation), and — when all its guards
pass — still invokes `rotateAccount` on the unchanged pool; no unguarded
out-of-bounds access occurs. -/
theorem C10_guarded_oob (cfg : Antigravity.AccountsConfig)
    (msg : Antigravity.TurnMessage) (now : Int)
    (hoob : (cfg.accounts.length : Int) ≤ cfg.currentIndex) :
    Antigravity.statusName cfg = "?"
    ∧ (Antigravity.turnEnd (some Antigravity.PROVIDER) msg cfg now).marked
        = false
    ∧ (Antigravity.turnEnd (some Antigravity.PROVIDER) msg cfg now).preRotate
        = cfg
    ∧ (msg.role = "assistant" → msg.stopReason = "error" →
        jsTruthyStr msg.errorMessage = true →
        testPattern Antigravity.RATE_LIMIT_PATTERN (msg.errorMessage.getD "")
          = true →
        1 < cfg.accounts.length →
        (Antigravity.turnEnd (some Antigravity.PROVIDER) msg cfg now).rotated
          = some (Antigravity.rotateAccount cfg now)) := by
  have hget : jsGet cfg.accounts cfg.currentIndex = none :=
    jsGet_none_of_len_le hoob
  have hc0 : ¬((some Antigravity.PROVIDER : Option String)
      ≠ some Antigravity.PROVIDER) := by simp
  have hte : Antigravity.turnEnd (some Antigravity.PROVIDER) msg cfg now
      = ⟨cfg, false, none⟩
    ∨ Antigravity.turnEnd (some Antigravity.PROVIDER) msg cfg now
      = ⟨cfg, false, some (Antigravity.rotateAccount cfg now)⟩ := by
    unfold Antigravity.turnEnd
    rw [if_neg hc0]
    by_cases h1 : msg.role ≠ "assistant"
    · rw [if_pos h1]; exact Or.inl rfl
    · rw [if_neg h1]
      by_cases h2 : msg.stopReason ≠ "error" ∨ ¬jsTruthyStr msg.errorMessage
      · rw [if_pos h2]; exact Or.inl rfl
      · rw [if_neg h2]
        by_cases h3 : ¬testPattern Antigravity.RATE_LIMIT_PATTERN
            (msg.errorMessage.getD "")
        · rw [if_pos h3]; exact Or.inl rfl
        · rw [if_neg h3]
          by_cases h4 : cfg.accounts.length ≤ 1
          · rw [if_pos h4]; exact Or.inl rfl
          · rw [if_neg h4, hget]
            exact Or.inr rfl
  refine ⟨?_, ?_, ?_, ?_⟩
  · unfold Antigravity.statusName
    rw [hget]
  · rcases hte with h | h <;> rw [h]
  · rcases hte with h | h <;> rw [h]
  · intro hrole hstop herr hpat hlen
    have hval : Antigravity.turnEnd (some Antigravity.PROVIDER) msg cfg now
        = ⟨cfg, false, some (Antigravity.rotateAccount cfg now)⟩ := by
      unfold Antigravity.turnEnd
      rw [if_neg hc0, if_neg (by simp [hrole]),
        if_neg (by
          intro hc
          rcases hc with hA | hB
          · exact hA hstop
          · exact hB herr),
        if_neg (by simp [hpat]), if_neg (by omega), hget]
    rw [hval]

/-- C10, witness instance: a pool of two accounts with `currentIndex = 5`. -/
theorem C10_guarded_oob_witness :
    Antigravity.statusName ⟨[fxAvail, fxAvail2], 5⟩ = "?"
    ∧ (Antigravity.turnEnd (some Antigravity.PROVIDER) fxMsg
        ⟨[fxAvail, fxAvail2], 5⟩ 77).rotated
      = some (Antigravity.rotateAccount ⟨[fxAvail, fxAvail2], 5⟩ 77) := by
  have h := C10_guarded_oob ⟨[fxAvail, fxAvail2], 5⟩ fxMsg 77 (by decide)
  exact ⟨h.1, h.2.2.2 (by decide) (by decide) (by decide) (by decide)
    (by decide)⟩

end PiExt
